import Mathlib

/-!
# Verification of the `synth` signal engine (envelopes, mixer, polyphonic allocator)

The Go sources (`envelopes.go`, `streamer.go`, `synth.go`, `oscillators.go`, `sound.go`) are
embedded shallowly. Numbers are rationals `ℚ`. The envelope readings come in two forms:
`GetAmplitude` computes the source's formulas exactly and is used where no rounding can
matter (branch structure, latches, zero readings, monotonicity); `GetAmplitude64` rounds
every arithmetic operation to float64 with `fl64` and is used where the exact value of a
reading is at stake. NaN, infinities and division by zero are outside both forms.
The process-wide logical time returned by `getGlobalTime()` is passed explicitly as `now`.
-/

namespace GoSynth

/-! ## envelopes.go -/

/-- ADEnvelope of envelopes.go: attack-decay envelope, exported shape fields and the two
hidden state fields. -/
structure ADEnvelope where
  Amplitude : ℚ
  AttackDuration : ℚ
  DecayDuration : ℚ
  attackTime : ℚ
  started : Bool

/-- ADEnvelope.GetAmplitude (envelopes.go 30-50), arithmetic exact (the float64 form is
`ADEnvelope.GetAmplitude64`). -/
def ADEnvelope.GetAmplitude (env : ADEnvelope) (t : ℚ) : ℚ :=
  if !env.started then 0
  else
    let current := t - env.attackTime
    if current ≤ env.AttackDuration then
      (current / env.AttackDuration) * env.Amplitude
    else if current > env.AttackDuration ∧ current ≤ env.AttackDuration + env.DecayDuration then
      env.Amplitude - (env.Amplitude * ((current - env.AttackDuration) / env.DecayDuration))
    else 0

/-- ADEnvelope.Attack (envelopes.go 53-57); the debug print is not modelled. -/
def ADEnvelope.Attack (env : ADEnvelope) (t : ℚ) : ADEnvelope :=
  { env with started := true, attackTime := t }

/-- ADEnvelope.Release (envelopes.go 60): does nothing. -/
def ADEnvelope.Release (env : ADEnvelope) (_t : ℚ) : ADEnvelope := env

/-- ADEnvelope.Finished (envelopes.go 63-65); `now` is `getGlobalTime()`. -/
def ADEnvelope.Finished (env : ADEnvelope) (now : ℚ) : Bool :=
  decide (now > env.attackTime + env.AttackDuration + env.DecayDuration)

/-- ADEnvelope.Started (envelopes.go 68-70). -/
def ADEnvelope.Started (env : ADEnvelope) : Bool := env.started

/-- NewADEnvelope (envelopes.go 73-82). -/
def NewADEnvelope (amp attackDuration decayDuration : ℚ) : ADEnvelope :=
  { Amplitude := amp, AttackDuration := attackDuration, DecayDuration := decayDuration,
    attackTime := 0, started := false }

/-- ASREnvelope of envelopes.go: attack-sustain-release envelope. -/
structure ASREnvelope where
  AttackDuration : ℚ
  ReleaseDuration : ℚ
  Amplitude : ℚ
  attackTime : ℚ
  releaseTime : ℚ
  isOn : Bool
  started : Bool

/-- ASREnvelope.GetAmplitude (envelopes.go 100-126), arithmetic exact (the float64 form is
`ASREnvelope.GetAmplitude64`). -/
def ASREnvelope.GetAmplitude (env : ASREnvelope) (t : ℚ) : ℚ :=
  if !env.started then 0
  else
    let current := t - env.attackTime
    if current ≤ env.AttackDuration then
      (current / env.AttackDuration) * env.Amplitude
    else if current > env.AttackDuration ∧ env.isOn = true then
      env.Amplitude
    else
      let current := t - env.releaseTime
      if current ≤ env.ReleaseDuration then
        env.Amplitude - (env.Amplitude * (current / env.ReleaseDuration))
      else 0

/-- ASREnvelope.Attack (envelopes.go 129-134). -/
def ASREnvelope.Attack (env : ASREnvelope) (t : ℚ) : ASREnvelope :=
  { env with attackTime := t, isOn := true, started := true }

/-- ASREnvelope.Release (envelopes.go 137-140). -/
def ASREnvelope.Release (env : ASREnvelope) (t : ℚ) : ASREnvelope :=
  { env with releaseTime := t, isOn := false }

/-- ASREnvelope.Finished (envelopes.go 143-145); `now` is `getGlobalTime()`. -/
def ASREnvelope.Finished (env : ASREnvelope) (now : ℚ) : Bool :=
  decide (now > env.releaseTime + env.ReleaseDuration)

/-- ASREnvelope.Started (envelopes.go 148-150). -/
def ASREnvelope.Started (env : ASREnvelope) : Bool := env.started

/-- NewASREnvelope (envelopes.go 153-159); the fields left out of the Go literal take
their zero values. -/
def NewASREnvelope (amplitude attackDuration releaseDuration : ℚ) : ASREnvelope :=
  { AttackDuration := attackDuration, ReleaseDuration := releaseDuration,
    Amplitude := amplitude, attackTime := 0, releaseTime := 0, isOn := false,
    started := false }

/-- ADSREnvelope of envelopes.go: attack-decay-sustain-release envelope. -/
structure ADSREnvelope where
  AttackDuration : ℚ
  DecayDuration : ℚ
  ReleaseDuration : ℚ
  AttackAmplitude : ℚ
  SustainAmplitude : ℚ
  attackTime : ℚ
  releaseTime : ℚ
  isOn : Bool
  finished : Bool
  started : Bool

/-- ADSREnvelope.GetAmplitude (envelopes.go 179-211), arithmetic exact (the float64 form is
`ADSREnvelope.GetAmplitude64`). -/
def ADSREnvelope.GetAmplitude (env : ADSREnvelope) (t : ℚ) : ℚ :=
  if !env.started then 0
  else
    let current := t - env.attackTime
    if current ≤ env.AttackDuration then
      (current / env.AttackDuration) * env.AttackAmplitude
    else if current > env.AttackDuration ∧
        current ≤ env.AttackDuration + env.DecayDuration then
      env.AttackAmplitude -
        ((env.AttackAmplitude - env.SustainAmplitude) *
          ((current - env.AttackDuration) / env.DecayDuration))
    else if current > env.AttackDuration + env.DecayDuration ∧ env.isOn = true then
      env.SustainAmplitude
    else
      let current := t - env.releaseTime
      if current ≤ env.ReleaseDuration then
        env.SustainAmplitude - (env.SustainAmplitude * (current / env.ReleaseDuration))
      else 0

/-- ADSREnvelope.Attack (envelopes.go 214-220). -/
def ADSREnvelope.Attack (env : ADSREnvelope) (t : ℚ) : ADSREnvelope :=
  { env with started := true, attackTime := t, isOn := true }

/-- ADSREnvelope.Release (envelopes.go 223-226). -/
def ADSREnvelope.Release (env : ADSREnvelope) (t : ℚ) : ADSREnvelope :=
  { env with releaseTime := t, isOn := false }

/-- ADSREnvelope.Finished (envelopes.go 229-231); `now` is `getGlobalTime()`. -/
def ADSREnvelope.Finished (env : ADSREnvelope) (now : ℚ) : Bool :=
  decide (now > env.releaseTime + env.ReleaseDuration)

/-- ADSREnvelope.Started (envelopes.go 234-236). -/
def ADSREnvelope.Started (env : ADSREnvelope) : Bool := env.started

/-- NewADSREnvelope (envelopes.go 239-247); the fields left out of the Go literal take
their zero values. -/
def NewADSREnvelope (attackAmplitude sustainAmplitude attackDuration decayDuration
    releaseDuration : ℚ) : ADSREnvelope :=
  { AttackDuration := attackDuration, DecayDuration := decayDuration,
    ReleaseDuration := releaseDuration, AttackAmplitude := attackAmplitude,
    SustainAmplitude := sustainAmplitude, attackTime := 0, releaseTime := 0,
    isOn := false, finished := false, started := false }

/-- The Envelope interface (envelopes.go 7-15) over its three implementations. -/
inductive Envelope where
  | ad : ADEnvelope → Envelope
  | asr : ASREnvelope → Envelope
  | adsr : ADSREnvelope → Envelope

/-- Envelope.GetAmplitude: dynamic dispatch on the implementation. -/
def Envelope.GetAmplitude : Envelope → ℚ → ℚ
  | .ad e, t => e.GetAmplitude t
  | .asr e, t => e.GetAmplitude t
  | .adsr e, t => e.GetAmplitude t

/-- Envelope.Attack: dynamic dispatch on the implementation. -/
def Envelope.Attack : Envelope → ℚ → Envelope
  | .ad e, t => .ad (e.Attack t)
  | .asr e, t => .asr (e.Attack t)
  | .adsr e, t => .adsr (e.Attack t)

/-- Envelope.Release: dynamic dispatch on the implementation. -/
def Envelope.Release : Envelope → ℚ → Envelope
  | .ad e, t => .ad (e.Release t)
  | .asr e, t => .asr (e.Release t)
  | .adsr e, t => .adsr (e.Release t)

/-- Envelope.Finished: dynamic dispatch on the implementation. -/
def Envelope.Finished : Envelope → ℚ → Bool
  | .ad e, now => e.Finished now
  | .asr e, now => e.Finished now
  | .adsr e, now => e.Finished now

/-- Envelope.Started: dynamic dispatch on the implementation. -/
def Envelope.Started : Envelope → Bool
  | .ad e => e.Started
  | .asr e => e.Started
  | .adsr e => e.Started

/-- The hidden attack timestamp of an envelope (field `attackTime` of each variant). -/
def Envelope.attackTime : Envelope → ℚ
  | .ad e => e.attackTime
  | .asr e => e.attackTime
  | .adsr e => e.attackTime

/-- A trigger call on an envelope, with its timestamp argument. -/
inductive EnvCall where
  | attack : ℚ → EnvCall
  | release : ℚ → EnvCall

/-- Timestamp argument of a trigger call. -/
def EnvCall.time : EnvCall → ℚ
  | .attack t => t
  | .release t => t

/-- One trigger call applied to an envelope. -/
def Envelope.call (env : Envelope) : EnvCall → Envelope
  | .attack t => env.Attack t
  | .release t => env.Release t

/-- A sequence of trigger calls applied in order. -/
def Envelope.calls (env : Envelope) (cs : List EnvCall) : Envelope :=
  cs.foldl Envelope.call env

/-- A sequence of Release calls (timestamps `ts`) applied in order. -/
def Envelope.releases (env : Envelope) (ts : List ℚ) : Envelope :=
  ts.foldl Envelope.Release env

/-! ## streamer.go -/

/-- The Streamer interface (streamer.go 5-7) for deterministic sources: `Stream t` is a
function of the time only (StreamerFunc, streamer.go 10-15). -/
structure Streamer where
  Stream : ℚ → ℚ

/-- Mixer (streamer.go 18-20): an ordered slice of streamers. -/
structure Mixer where
  streamers : List Streamer

/-- Mixer.Stream (streamer.go 23-31): the accumulation loop `sum += streamer.Stream(t)`
starting at `sum := 0.0`. -/
def Mixer.Stream (m : Mixer) (t : ℚ) : ℚ :=
  m.streamers.foldl (fun sum streamer => sum + streamer.Stream t) 0

/-- Mixer.Add (streamer.go 34-36): `append(m.streamers, streamers...)`. -/
def Mixer.Add (m : Mixer) (streamers : List Streamer) : Mixer :=
  { streamers := m.streamers ++ streamers }

/-- NewMixer (streamer.go 39-41). -/
def NewMixer (streamers : List Streamer) : Mixer :=
  { streamers := streamers }

/-! ## synth.go -/

/-- Synth (synth.go 12-21); the mutex is not modelled (calls are sequential here). -/
structure Synth where
  streamFunc : ℚ → ℚ → ℚ → ℚ
  Env : Envelope
  freq : ℚ
  amp : ℚ
  finished : Bool

/-- Synth.Stream (synth.go 24-33): returns the updated synth (the `finished` latch) and the
sample. -/
def Synth.Stream (s : Synth) (t : ℚ) : Synth × ℚ :=
  let s1 : Synth :=
    if s.Env.GetAmplitude t ≤ 0 ∧ s.Env.Started = true then { s with finished := true }
    else s
  (s1, s1.amp * s1.streamFunc (s1.Env.GetAmplitude t) s1.freq t)

/-- Synth.SetFreq (synth.go 55-59). -/
def Synth.SetFreq (s : Synth) (freq : ℚ) : Synth := { s with freq := freq }

/-- Synth.SetAmp (synth.go 62-66). -/
def Synth.SetAmp (s : Synth) (amp : ℚ) : Synth := { s with amp := amp }

/-- Synth.TriggerAttack (synth.go 36-39); `now` is `getGlobalTime()`. -/
def Synth.TriggerAttack (s : Synth) (freq now : ℚ) : Synth :=
  let s1 := s.SetFreq freq
  { s1 with Env := s1.Env.Attack now }

/-- Synth.TriggerRelease (synth.go 42-44); `now` is `getGlobalTime()`. -/
def Synth.TriggerRelease (s : Synth) (now : ℚ) : Synth :=
  { s with Env := s.Env.Release now }

/-- Synth.Finished (synth.go 69-74). -/
def Synth.Finished (s : Synth) : Bool := s.finished

/-- NewSynth (synth.go 77-85); `freq` and `finished` take their zero values. -/
def NewSynth (streamFunc : ℚ → ℚ → ℚ → ℚ) (env : Envelope) (amp : ℚ) : Synth :=
  { streamFunc := streamFunc, Env := env, freq := 0, amp := amp, finished := false }

/-- The struct `note` (synth.go 94-99): a voice with its on/off timestamps (`on_` is the Go
field `on`, a reserved word here). -/
structure note where
  synth : Synth
  on_ : ℚ
  off : ℚ

/-- The Go map `map[float64]*note`: a finite list of key/value entries in which every key
occurs at most once. The order of the list carries no meaning. -/
structure NoteMap where
  entries : List (ℚ × note)
  nodup : (entries.map Prod.fst).Nodup

/-- The empty map `map[float64]*note{}`. -/
def NoteMap.empty : NoteMap := ⟨[], List.nodup_nil⟩

/-- Keys of the map. -/
def NoteMap.keys (m : NoteMap) : List ℚ := m.entries.map Prod.fst

/-- Map read `m[f]`: the entry stored under `f`, if any. -/
def NoteMap.lookup (m : NoteMap) (f : ℚ) : Option note :=
  (m.entries.find? (fun e => decide (e.1 = f))).map Prod.snd

/-- Map write `m[f] = n`: any previous entry under `f` is replaced. -/
def NoteMap.insert (m : NoteMap) (f : ℚ) (n : note) : NoteMap :=
  ⟨(f, n) :: m.entries.filter (fun e => decide (e.1 ≠ f)), by
    rw [List.map_cons, List.nodup_cons]
    refine ⟨?_, m.nodup.sublist ((List.filter_sublist m.entries).map Prod.fst)⟩
    intro h
    obtain ⟨e, he, hf⟩ := List.mem_map.1 h
    have := (List.mem_filter.1 he).2
    simp at this
    exact this hf⟩

/-- Map deletion `delete(m, f)`. -/
def NoteMap.erase (m : NoteMap) (f : ℚ) : NoteMap :=
  ⟨m.entries.filter (fun e => decide (e.1 ≠ f)),
    m.nodup.sublist ((List.filter_sublist m.entries).map Prod.fst)⟩

/-- A loop `for _, note := range m` that mutates every note through its pointer: the keys
stay as they are. -/
def NoteMap.mapValues (m : NoteMap) (g : note → note) : NoteMap :=
  ⟨m.entries.map (fun e => (e.1, g e.2)), by
    have h : (m.entries.map (fun e => (e.1, g e.2))).map Prod.fst =
        m.entries.map Prod.fst := by
      rw [List.map_map]; rfl
    rw [h]; exact m.nodup⟩

/-- A write through the pointer stored under key `f` (`m[f].field = ...`): the note under
`f`, if there is one, is updated in place; no entry is added or removed. -/
def NoteMap.modify (m : NoteMap) (f : ℚ) (g : note → note) : NoteMap :=
  ⟨m.entries.map (fun e => if e.1 = f then (e.1, g e.2) else e), by
    have h : (m.entries.map (fun e => if e.1 = f then (e.1, g e.2) else e)).map Prod.fst =
        m.entries.map Prod.fst := by
      rw [List.map_map]
      apply List.map_congr_left
      intro e _
      show (if e.1 = f then (e.1, g e.2) else e).1 = e.1
      split_ifs <;> rfl
    rw [h]; exact m.nodup⟩

/-- PolySynth (synth.go 88-92); the mutex is not modelled. -/
structure PolySynth where
  base : Synth
  notes : NoteMap

/-- NewPolySynth (synth.go 102-108). -/
def NewPolySynth (synth : Synth) : PolySynth :=
  { base := synth, notes := NoteMap.empty }

/-- The voice built by addSynth (synth.go 135-149): a copy of the base synth (made by the
external `copystructure.Copy`, taken as the parameter `copy`) whose `streamFunc`, `freq` and
`amp` are then set, wrapped in a `note` with zero on/off timestamps. -/
def PolySynth.newNote (copy : Synth → Synth) (ps : PolySynth) (freq : ℚ) : note :=
  let copied := copy ps.base
  let s : Synth := { copied with streamFunc := ps.base.streamFunc }
  let s := s.SetFreq freq
  let s := s.SetAmp ps.base.amp
  { synth := s, on_ := 0, off := 0 }

/-- PolySynth.addSynth (synth.go 134-154): stores the new voice under `freq` and returns it
(the debug print is not modelled). -/
def PolySynth.addSynth (copy : Synth → Synth) (ps : PolySynth) (freq : ℚ) :
    PolySynth × note :=
  let n := ps.newNote copy freq
  ({ ps with notes := ps.notes.insert freq n }, n)

/-- One iteration of the loop of PolySynth.TriggerAttack (synth.go 166-170). The pointer
returned by addSynth is the one addSynth stored under `f`, so `note.synth.Env.Attack(...)`
and `note.on = ...` are writes into the entry stored under `f`: in-place updates of that
entry (nothing is stored here; the only map write is the one of addSynth). `now` is
`getGlobalTime()`. -/
def PolySynth.attackOne (copy : Synth → Synth) (now : ℚ) (ps : PolySynth) (f : ℚ) :
    PolySynth :=
  let r := ps.addSynth copy f
  let notes := r.1.notes.modify f
    (fun n => { n with synth := { n.synth with Env := n.synth.Env.Attack now } })
  let notes := notes.modify f (fun n => { n with on_ := now })
  { r.1 with notes := notes }

/-- PolySynth.TriggerAttack (synth.go 165-171). -/
def PolySynth.TriggerAttack (copy : Synth → Synth) (ps : PolySynth) (freq : List ℚ)
    (now : ℚ) : PolySynth :=
  freq.foldl (PolySynth.attackOne copy now) ps

/-- Body of the inner loop of PolySynth.TriggerRelease (synth.go 177-180) on one note. -/
def note.releaseIf (now f : ℚ) (n : note) : note :=
  if n.synth.freq = f then
    { synth := { n.synth with Env := n.synth.Env.Release now }, on_ := n.on_, off := now }
  else n

/-- PolySynth.TriggerRelease (synth.go 174-184); `now` is `getGlobalTime()`. -/
def PolySynth.TriggerRelease (ps : PolySynth) (freq : List ℚ) (now : ℚ) : PolySynth :=
  freq.foldl (fun ps f => { ps with notes := ps.notes.mapValues (note.releaseIf now f) }) ps

/-- Body of the loop of PolySynth.Stream (synth.go 117-128) for the entry `e` of the map:
`synth.Stream(t)` updates the voice behind the stored pointer and yields `val`; the entry
is deleted when `val == 0 && note.synth.Finished() && note.off > note.on`; `val` is added
to the running sum in every case. -/
def PolySynth.streamStep (t : ℚ) (acc : NoteMap × ℚ) (e : ℚ × note) : NoteMap × ℚ :=
  let r := e.2.synth.Stream t
  let n : note := { e.2 with synth := r.1 }
  let notes := acc.1.insert e.1 n
  let notes :=
    if r.2 = 0 ∧ n.synth.Finished = true ∧ n.off > n.on_ then notes.erase e.1 else notes
  (notes, acc.2 + r.2)

/-- PolySynth.Stream (synth.go 111-131): the loop over the live-voice map (each entry
present at the start is visited once; only the entry being visited is ever deleted),
returning the updated allocator and the sum. -/
def PolySynth.Stream (ps : PolySynth) (t : ℚ) : PolySynth × ℚ :=
  let r := ps.notes.entries.foldl (PolySynth.streamStep t) (ps.notes, 0)
  ({ ps with notes := r.1 }, r.2)

/-- The deletion test of PolySynth.Stream for a voice `n` at time `t`: its sample is 0, its
Finished latch is set after streaming, and its off-timestamp is greater than its
on-timestamp. -/
def note.removedAt (n : note) (t : ℚ) : Bool :=
  decide ((n.synth.Stream t).2 = 0 ∧ (n.synth.Stream t).1.Finished = true ∧ n.off > n.on_)

/-- The voice `n` after `synth.Stream(t)` ran on it. -/
def note.streamed (n : note) (t : ℚ) : note :=
  { n with synth := (n.synth.Stream t).1 }

/-- PolySynth.getSynth (synth.go 157-162): `ps.notes[freq].synth, ps.notes[freq] != nil`.
For a missing key the map read yields a nil `*note` and the field access `.synth`
dereferences it: the run-time panic is the result `none`. -/
def PolySynth.getSynth (ps : PolySynth) (freq : ℚ) : Option (Synth × Bool) :=
  match ps.notes.lookup freq with
  | none => none
  | some n => some (n.synth, true)

/-- A call on a single Synth, with its arguments (`now` is the global time read by the
trigger methods). -/
inductive SynthCall where
  | stream : ℚ → SynthCall
  | setFreq : ℚ → SynthCall
  | setAmp : ℚ → SynthCall
  | triggerAttack : ℚ → ℚ → SynthCall
  | triggerRelease : ℚ → SynthCall

/-- One call applied to a Synth (the sample returned by Stream is dropped). -/
def Synth.call (s : Synth) : SynthCall → Synth
  | .stream t => (s.Stream t).1
  | .setFreq f => s.SetFreq f
  | .setAmp a => s.SetAmp a
  | .triggerAttack f now => s.TriggerAttack f now
  | .triggerRelease now => s.TriggerRelease now

/-- A sequence of calls applied in order. -/
def Synth.calls (s : Synth) (cs : List SynthCall) : Synth :=
  cs.foldl Synth.call s

/-- Whether some Stream call of the run `cs` started from `s` reads an envelope amplitude
<= 0 on a started envelope (the test of synth.go 28, at the state the call finds). -/
def Synth.observed : Synth → List SynthCall → Bool
  | _, [] => false
  | s, c :: cs =>
    (match c with
      | .stream t => decide (s.Env.GetAmplitude t ≤ 0 ∧ s.Env.Started = true)
      | _ => false) || Synth.observed (s.call c) cs

/-- A base synth for concrete examples: the stream function returns the envelope amplitude,
the envelope is `NewASREnvelope 1 1 1`, the amp is 1. -/
def exampleBase : Synth :=
  NewSynth (fun a _ _ => a) (Envelope.asr (NewASREnvelope 1 1 1)) 1

/-- The voice of `exampleBase` at frequency 440 after an attack at 0 and a release at 2. -/
def exampleReleasedNote : note :=
  { synth :=
      { streamFunc := fun a _ _ => a,
        Env := Envelope.asr
          { AttackDuration := 1, ReleaseDuration := 1, Amplitude := 1, attackTime := 0,
            releaseTime := 2, isOn := false, started := true },
        freq := 440, amp := 1, finished := false },
    on_ := 0, off := 2 }

/-! ## oscillators.go, utils.go -/

/-- OscParams (oscillators.go 9-11). -/
structure OscParams where
  Amplitude : ℚ
  Frequency : ℚ

/-- OscParams.Freq (oscillators.go 16-18). -/
def OscParams.Freq (p : OscParams) : ℚ := p.Frequency

/-- OscParams.Amp (oscillators.go 30-32). -/
def OscParams.Amp (p : OscParams) : ℚ := p.Amplitude

/-- W (utils.go 7-9): `2 * math.Pi * freq`; the constant `math.Pi` of the Go library is the
parameter `pi`. -/
def W (pi : ℚ) (freq : ℚ) : ℚ := 2 * pi * freq

/-- Square (oscillators.go 69-71): embeds OscParams. -/
structure Square extends OscParams

/-- Square.Stream (oscillators.go 74-80); `math.Sin` of the Go library is the parameter
`sin`. -/
def Square.Stream (sin : ℚ → ℚ) (pi : ℚ) (w : Square) (t : ℚ) : ℚ :=
  if w.toOscParams.Amp * sin (W pi w.toOscParams.Freq * t) > 0 then 1 else -1

/-- NewSquare (oscillators.go 83-87). -/
def NewSquare (amp freq : ℚ) : Square :=
  { Amplitude := amp, Frequency := freq }

/-! ## sound.go -/

/-- Go conversion of a float64 to an integer type: the fraction is discarded (truncation
towards zero). -/
def truncToInt (x : ℚ) : ℤ := if 0 ≤ x then ⌊x⌋ else ⌈x⌉

/-- Conversion `int16(x)` of a float64: truncation, read as a 16-bit two's-complement
value (Go leaves the result open when the truncated value is out of range; wrap-around
is used here). -/
def int16 (x : ℚ) : ℤ := (truncToInt x + 2 ^ 15) % 2 ^ 16 - 2 ^ 15

/-- Conversion `byte(z)` of an int16: the low eight bits. -/
def byte (z : ℤ) : ℕ := (z % 256).toNat

/-- Function sampleToPCM (sound.go 26-32): `1<<15 - 1` is 32767, `>> 8` on an int16 is the
arithmetic shift. -/
def sampleToPCM (val : ℚ) : List ℕ :=
  let intVal := int16 (val * (2 ^ 15 - 1))
  let low := byte intVal
  let high := byte (Int.shiftRight intVal 8)
  [low, high]

/-- Reading two bytes as a little-endian two's-complement 16-bit integer (the format the
output sink expects; not a function of the source). -/
def decodeInt16LE (low high : ℕ) : ℤ :=
  if (low : ℤ) + 256 * (high : ℤ) ≥ 32768 then (low : ℤ) + 256 * (high : ℤ) - 65536
  else (low : ℤ) + 256 * (high : ℤ)

/-- A stateful streamer held by the global mixer: a `*Synth` or a `*PolySynth`. -/
inductive Source where
  | synth : Synth → Source
  | poly : PolySynth → Source

/-- The Stream method of a Synth or PolySynth behind the Streamer interface: updated
object and sample. -/
def Source.Stream : Source → ℚ → Source × ℚ
  | .synth s, t => ((Source.synth (s.Stream t).1), (s.Stream t).2)
  | .poly ps, t => ((Source.poly (ps.Stream t).1), (ps.Stream t).2)

/-- Mixer.Stream (streamer.go 23-31) on a mixer whose streamers are Synths and PolySynths:
the same accumulation loop, carrying the objects updated by their Stream methods (each
list element is an object of its own). -/
def Mixer.streamSources (t : ℚ) (srcs : List Source) : List Source × ℚ :=
  srcs.foldl (fun acc src => (acc.1 ++ [(src.Stream t).1], acc.2 + (src.Stream t).2)) ([], 0)

/-- The render loop of `init` (sound.go 56-62) run for `n` ticks from time `t`: each tick
streams the global mixer (`NoiseFunc` is `GlobalMixer.Stream`), encodes the sample with
sampleToPCM and advances the time by `dt` (`sr.D(1).Seconds()` of the external library).
The result is the list of byte pairs written to the player. -/
def renderTicks (dt : ℚ) : ℕ → ℚ → List Source → List (List ℕ)
  | 0, _, _ => []
  | n + 1, t, srcs =>
    sampleToPCM (Mixer.streamSources t srcs).2 ::
      renderTicks dt n (t + dt) (Mixer.streamSources t srcs).1

/-- A Synth or PolySynth on which no trigger method was called, seen on its state: the
Synth's envelope has not started; the PolySynth holds no voice. -/
def Source.Untriggered : Source → Prop
  | .synth s => s.Env.Started = false
  | .poly ps => ps.notes.entries = []

/-- The stream function of a Synth is silent at amplitude 0 (no condition on a
PolySynth). -/
def Source.SilentAtZero : Source → Prop
  | .synth s => ∀ f t : ℚ, s.streamFunc 0 f t = 0
  | .poly _ => True

/-- A call on a PolySynth, with its arguments (`now` is the global time read by the trigger
methods). -/
inductive PolyCall where
  | triggerAttack : List ℚ → ℚ → PolyCall
  | triggerRelease : List ℚ → ℚ → PolyCall
  | stream : ℚ → PolyCall

/-- One call applied to a PolySynth (the sample returned by Stream is dropped). -/
def PolySynth.call (copy : Synth → Synth) (ps : PolySynth) : PolyCall → PolySynth
  | .triggerAttack freqs now => ps.TriggerAttack copy freqs now
  | .triggerRelease freqs now => ps.TriggerRelease freqs now
  | .stream t => (ps.Stream t).1

/-- A sequence of calls applied in order. -/
def PolySynth.calls (copy : Synth → Synth) (ps : PolySynth) (cs : List PolyCall) :
    PolySynth :=
  cs.foldl (PolySynth.call copy) ps

/-- The effect of the two statements inside the `if` of TriggerRelease (synth.go 178-179)
on a note: its envelope is released at `now` and its off-timestamp is `now`. -/
def note.released (now : ℚ) (n : note) : note :=
  { synth := { n.synth with Env := n.synth.Env.Release now }, on_ := n.on_, off := now }

/-- Key/frequency invariant: whatever is read under a key is a voice whose frequency field
is that key. -/
def PolySynth.KeyedByFreq (ps : PolySynth) : Prop :=
  ∀ (k : ℚ) (n : note), ps.notes.lookup k = some n → n.synth.freq = k

/-! ## float64 arithmetic -/

/-- Rounding of a rational to the nearest integer, ties to the even integer. -/
def roundNearestEven (q : ℚ) : ℤ :=
  if q - ⌊q⌋ < 1 / 2 then ⌊q⌋
  else if 1 / 2 < q - ⌊q⌋ then ⌊q⌋ + 1
  else if ⌊q⌋ % 2 = 0 then ⌊q⌋ else ⌊q⌋ + 1

/-- Rounding to float64 (IEEE 754 binary64, round to nearest, ties to even): the value a
float64 operation returns when its exact result is `x`. The exponent of `x` is
`Int.log 2 |x|`, held at -1022 for the subnormal range; the significand has 53 bits, so
the spacing of the float64 values around `x` is 2 to the exponent minus 52. Overflow to
infinity, NaN and the sign of zero are not represented. -/
def fl64 (x : ℚ) : ℚ :=
  if x = 0 then 0
  else
    (roundNearestEven (x / 2 ^ (max (Int.log 2 |x|) (-1022) - 52)) : ℚ) *
      2 ^ (max (Int.log 2 |x|) (-1022) - 52)

/-- The float64 value of the Go literal `0.1`. -/
def f64_0_1 : ℚ := 3602879701896397 / 36028797018963968

/-- The float64 value of the Go literal `0.05`. -/
def f64_0_05 : ℚ := 3602879701896397 / 72057594037927936

/-- The float64 value of the Go literal `0.95`. -/
def f64_0_95 : ℚ := 4278419646001971 / 4503599627370496

/-- The float64 value of the Go literal `0.2`. -/
def f64_0_2 : ℚ := 3602879701896397 / 18014398509481984

/-- ADEnvelope.GetAmplitude (envelopes.go 30-50) with float64 arithmetic: every
subtraction, addition, division and multiplication of the source is rounded by `fl64`
(operations are rounded one by one, none fused). -/
def ADEnvelope.GetAmplitude64 (env : ADEnvelope) (t : ℚ) : ℚ :=
  if !env.started then 0
  else
    let current := fl64 (t - env.attackTime)
    if current ≤ env.AttackDuration then
      fl64 (fl64 (current / env.AttackDuration) * env.Amplitude)
    else if current > env.AttackDuration ∧
        current ≤ fl64 (env.AttackDuration + env.DecayDuration) then
      fl64 (env.Amplitude -
        fl64 (env.Amplitude * fl64 (fl64 (current - env.AttackDuration) / env.DecayDuration)))
    else 0

/-- ASREnvelope.GetAmplitude (envelopes.go 100-126) with float64 arithmetic. -/
def ASREnvelope.GetAmplitude64 (env : ASREnvelope) (t : ℚ) : ℚ :=
  if !env.started then 0
  else
    let current := fl64 (t - env.attackTime)
    if current ≤ env.AttackDuration then
      fl64 (fl64 (current / env.AttackDuration) * env.Amplitude)
    else if current > env.AttackDuration ∧ env.isOn = true then
      env.Amplitude
    else
      let current := fl64 (t - env.releaseTime)
      if current ≤ env.ReleaseDuration then
        fl64 (env.Amplitude - fl64 (env.Amplitude * fl64 (current / env.ReleaseDuration)))
      else 0

/-- ADSREnvelope.GetAmplitude (envelopes.go 179-211) with float64 arithmetic. -/
def ADSREnvelope.GetAmplitude64 (env : ADSREnvelope) (t : ℚ) : ℚ :=
  if !env.started then 0
  else
    let current := fl64 (t - env.attackTime)
    if current ≤ env.AttackDuration then
      fl64 (fl64 (current / env.AttackDuration) * env.AttackAmplitude)
    else if current > env.AttackDuration ∧
        current ≤ fl64 (env.AttackDuration + env.DecayDuration) then
      fl64 (env.AttackAmplitude -
        fl64 (fl64 (env.AttackAmplitude - env.SustainAmplitude) *
          fl64 (fl64 (current - env.AttackDuration) / env.DecayDuration)))
    else if current > fl64 (env.AttackDuration + env.DecayDuration) ∧ env.isOn = true then
      env.SustainAmplitude
    else
      let current := fl64 (t - env.releaseTime)
      if current ≤ env.ReleaseDuration then
        fl64 (env.SustainAmplitude -
          fl64 (env.SustainAmplitude * fl64 (current / env.ReleaseDuration)))
      else 0

/-- Envelope.GetAmplitude with float64 arithmetic: dynamic dispatch. -/
def Envelope.GetAmplitude64 : Envelope → ℚ → ℚ
  | .ad e, t => e.GetAmplitude64 t
  | .asr e, t => e.GetAmplitude64 t
  | .adsr e, t => e.GetAmplitude64 t

/-! ## Envelope properties -/

/-- Release never changes the `started` flag of an envelope. -/
theorem Envelope.Started_Release (env : Envelope) (t : ℚ) :
    (env.Release t).Started = env.Started := by
  cases env <;> rfl

/-- A run of Release calls never changes the `started` flag. -/
theorem Envelope.Started_releases (ts : List ℚ) (env : Envelope) :
    (env.releases ts).Started = env.Started := by
  induction ts generalizing env with
  | nil => rfl
  | cons a ts ih =>
    have h : env.releases (a :: ts) = (env.Release a).releases ts := rfl
    rw [h, ih, Envelope.Started_Release]

/-- An envelope that has not started reads amplitude 0 at every time. -/
theorem Envelope.GetAmplitude_of_not_started (env : Envelope) (h : env.Started = false)
    (t : ℚ) : env.GetAmplitude t = 0 := by
  cases env with
  | ad e =>
    have h1 : e.started = false := h
    simp [Envelope.GetAmplitude, ADEnvelope.GetAmplitude, h1]
  | asr e =>
    have h1 : e.started = false := h
    simp [Envelope.GetAmplitude, ASREnvelope.GetAmplitude, h1]
  | adsr e =>
    have h1 : e.started = false := h
    simp [Envelope.GetAmplitude, ADSREnvelope.GetAmplitude, h1]

/-- C1: each envelope variant, as returned by its constructor and after any number of Release
calls (no Attack), reads amplitude 0 at every time t. -/
theorem C1_amplitude_zero_before_attack (ts : List ℚ) (t : ℚ) :
    (∀ amp ad dd : ℚ,
      ((Envelope.ad (NewADEnvelope amp ad dd)).releases ts).GetAmplitude t = 0) ∧
    (∀ amp ad rd : ℚ,
      ((Envelope.asr (NewASREnvelope amp ad rd)).releases ts).GetAmplitude t = 0) ∧
    (∀ aa sa ad dd rd : ℚ,
      ((Envelope.adsr (NewADSREnvelope aa sa ad dd rd)).releases ts).GetAmplitude t = 0) := by
  refine ⟨?_, ?_, ?_⟩
  · intro amp ad dd
    apply Envelope.GetAmplitude_of_not_started
    rw [Envelope.Started_releases]; rfl
  · intro amp ad rd
    apply Envelope.GetAmplitude_of_not_started
    rw [Envelope.Started_releases]; rfl
  · intro aa sa ad dd rd
    apply Envelope.GetAmplitude_of_not_started
    rw [Envelope.Started_releases]; rfl

/-- Closed form of the AD envelope on the attack interval. -/
theorem ADEnvelope.GetAmplitude_attack (env : ADEnvelope) (ta t : ℚ)
    (h : t ≤ ta + env.AttackDuration) :
    (env.Attack ta).GetAmplitude t = ((t - ta) / env.AttackDuration) * env.Amplitude := by
  have h1 : t - ta ≤ env.AttackDuration := by linarith
  simp [ADEnvelope.GetAmplitude, ADEnvelope.Attack, h1]

/-- Closed form of the AD envelope on the decay interval (both end points included). -/
theorem ADEnvelope.GetAmplitude_decay (env : ADEnvelope) (ta t : ℚ)
    (hA : 0 < env.AttackDuration) (h1 : ta + env.AttackDuration ≤ t)
    (h2 : t ≤ ta + env.AttackDuration + env.DecayDuration) :
    (env.Attack ta).GetAmplitude t =
      env.Amplitude - env.Amplitude * ((t - ta - env.AttackDuration) / env.DecayDuration) := by
  rcases eq_or_lt_of_le h1 with h | h
  · subst h
    rw [ADEnvelope.GetAmplitude_attack env ta _ le_rfl]
    have : ta + env.AttackDuration - ta = env.AttackDuration := by ring
    rw [this, div_self hA.ne.symm]
    simp
  · have h3 : ¬ (t - ta ≤ env.AttackDuration) := by intro h'; linarith
    have h4 : env.AttackDuration < t - ta := by linarith
    have h5 : t - ta ≤ env.AttackDuration + env.DecayDuration := by linarith
    simp [ADEnvelope.GetAmplitude, ADEnvelope.Attack, h3, h4, h5]

/-- C3: an AD envelope with non-negative Amplitude and positive durations attacked at ta is
non-decreasing on [ta, ta + AttackDuration] and non-increasing on
[ta + AttackDuration, ta + AttackDuration + DecayDuration]. -/
theorem C3_ad_envelope_monotone (env : ADEnvelope) (ta : ℚ) (hAmp : 0 ≤ env.Amplitude)
    (hA : 0 < env.AttackDuration) (hD : 0 < env.DecayDuration) :
    (∀ t1 t2 : ℚ, ta ≤ t1 → t1 ≤ t2 → t2 ≤ ta + env.AttackDuration →
      (env.Attack ta).GetAmplitude t1 ≤ (env.Attack ta).GetAmplitude t2) ∧
    (∀ t1 t2 : ℚ, ta + env.AttackDuration ≤ t1 → t1 ≤ t2 →
      t2 ≤ ta + env.AttackDuration + env.DecayDuration →
      (env.Attack ta).GetAmplitude t2 ≤ (env.Attack ta).GetAmplitude t1) := by
  constructor
  · intro t1 t2 _ h12 h2
    rw [ADEnvelope.GetAmplitude_attack env ta t1 (by linarith),
      ADEnvelope.GetAmplitude_attack env ta t2 h2]
    apply mul_le_mul_of_nonneg_right _ hAmp
    apply div_le_div_of_nonneg_right _ hA.le
    linarith
  · intro t1 t2 h1 h12 h2
    rw [ADEnvelope.GetAmplitude_decay env ta t1 hA h1 (by linarith),
      ADEnvelope.GetAmplitude_decay env ta t2 hA (by linarith) h2]
    have hdiv : (t1 - ta - env.AttackDuration) / env.DecayDuration ≤
        (t2 - ta - env.AttackDuration) / env.DecayDuration := by
      apply div_le_div_of_nonneg_right _ hD.le
      linarith
    have := mul_le_mul_of_nonneg_left hdiv hAmp
    linarith

/-- Witness for C3: the Bell envelope `NewADEnvelope 1 (1/10) 1` attacked at time 2. -/
theorem C3_ad_envelope_monotone_witness :
    (∀ t1 t2 : ℚ, 2 ≤ t1 → t1 ≤ t2 → t2 ≤ 2 + 1/10 →
      ((NewADEnvelope 1 (1/10) 1).Attack 2).GetAmplitude t1 ≤
        ((NewADEnvelope 1 (1/10) 1).Attack 2).GetAmplitude t2) ∧
    (∀ t1 t2 : ℚ, 2 + 1/10 ≤ t1 → t1 ≤ t2 → t2 ≤ 2 + 1/10 + 1 →
      ((NewADEnvelope 1 (1/10) 1).Attack 2).GetAmplitude t2 ≤
        ((NewADEnvelope 1 (1/10) 1).Attack 2).GetAmplitude t1) :=
  C3_ad_envelope_monotone (NewADEnvelope 1 (1/10) 1) 2
    (by norm_num [NewADEnvelope]) (by norm_num [NewADEnvelope]) (by norm_num [NewADEnvelope])

/-! ## Mixer properties -/

/-- The accumulation loop of Mixer.Stream started at `a` adds the plain sum to `a`. -/
theorem Mixer.foldl_eq_sum (l : List Streamer) (t a : ℚ) :
    l.foldl (fun sum streamer => sum + streamer.Stream t) a
      = a + (l.map (fun s => s.Stream t)).sum := by
  induction l generalizing a with
  | nil => simp
  | cons x l ih =>
    rw [List.foldl_cons, ih, List.map_cons, List.sum_cons]
    ring

/-- Mixer.Stream is the plain sum of its streamers. -/
theorem Mixer.Stream_eq_sum (m : Mixer) (t : ℚ) :
    m.Stream t = (m.streamers.map (fun s => s.Stream t)).sum := by
  unfold Mixer.Stream
  rw [Mixer.foldl_eq_sum]
  ring

/-- C8: a mixer built by NewMixer(xs) and any successive Add calls streams the plain sum of
its streamers' samples (no normalisation, no clipping); Add appends, so NewMixer(xs) then
Add(ys) streams the sum over xs followed by ys; a streamer added twice counts twice; the
empty mixer streams 0. -/
theorem C8_mixer_stream_sum (xs ys : List Streamer) (yss : List (List Streamer))
    (s : Streamer) (t : ℚ) :
    (NewMixer xs).Stream t = (xs.map (fun s => s.Stream t)).sum ∧
    (yss.foldl Mixer.Add (NewMixer xs)).streamers = xs ++ yss.flatten ∧
    (yss.foldl Mixer.Add (NewMixer xs)).Stream t
      = ((xs ++ yss.flatten).map (fun s => s.Stream t)).sum ∧
    ((NewMixer xs).Add ys).streamers = xs ++ ys ∧
    ((NewMixer xs).Add ys).Stream t
      = (xs.map (fun s => s.Stream t)).sum + (ys.map (fun s => s.Stream t)).sum ∧
    (((NewMixer xs).Add [s]).Add [s]).Stream t
      = (NewMixer xs).Stream t + s.Stream t + s.Stream t ∧
    (NewMixer []).Stream t = 0 := by
  have hjoin : ∀ (l : List (List Streamer)) (m : Mixer),
      (l.foldl Mixer.Add m).streamers = m.streamers ++ l.flatten := by
    intro l
    induction l with
    | nil => intro m; simp
    | cons y l ih =>
      intro m
      rw [List.foldl_cons, ih, List.flatten_cons]
      simp [Mixer.Add]
  refine ⟨Mixer.Stream_eq_sum _ t, hjoin yss (NewMixer xs), ?_, rfl, ?_, ?_, rfl⟩
  · rw [Mixer.Stream_eq_sum, hjoin]; rfl
  · rw [Mixer.Stream_eq_sum]
    simp [Mixer.Add, NewMixer]
  · rw [Mixer.Stream_eq_sum, Mixer.Stream_eq_sum]
    simp [Mixer.Add, NewMixer]
    ring

/-! ## Live-voice map and allocator properties -/

/-- Two maps with the same entry list are equal. -/
theorem NoteMap.ext_entries {m1 m2 : NoteMap} (h : m1.entries = m2.entries) : m1 = m2 := by
  cases m1; cases m2
  simp only at h
  subst h
  rfl

/-- Reading the key just written returns the written note. -/
theorem NoteMap.lookup_insert (m : NoteMap) (f : ℚ) (n : note) :
    (m.insert f n).lookup f = some n := by
  simp [NoteMap.lookup, NoteMap.insert]

/-- Dropping the entries keyed `f` does not change what is found under another key. -/
theorem NoteMap.find_filter_ne (l : List (ℚ × note)) (f g : ℚ) (h : g ≠ f) :
    (l.filter (fun e => decide (e.1 ≠ f))).find? (fun e => decide (e.1 = g))
      = l.find? (fun e => decide (e.1 = g)) := by
  induction l with
  | nil => rfl
  | cons e l ih =>
    rw [List.filter_cons]
    split_ifs with hc
    · simp only [List.find?_cons, ih]
    · have he : e.1 = f := by simpa using hc
      have hg : decide (e.1 = g) = false := by
        rw [he]
        exact decide_eq_false (fun h' => h h'.symm)
      simp only [List.find?_cons, hg]
      exact ih

/-- Writing under `f` does not change what is read under another key. -/
theorem NoteMap.lookup_insert_ne (m : NoteMap) (f g : ℚ) (n : note) (h : g ≠ f) :
    (m.insert f n).lookup g = m.lookup g := by
  have hfg : ¬ f = g := fun h' => h h'.symm
  unfold NoteMap.lookup NoteMap.insert
  simp only [List.find?_cons, hfg, decide_False]
  rw [NoteMap.find_filter_ne _ f g h]

/-- After a write under `f` the key `f` occurs exactly once. -/
theorem NoteMap.count_insert (m : NoteMap) (f : ℚ) (n : note) :
    (m.insert f n).keys.count f = 1 :=
  List.count_eq_one_of_mem (m.insert f n).nodup (by simp [NoteMap.insert, NoteMap.keys])

/-- The attack timestamp recorded by Attack is its argument. -/
theorem Envelope.attackTime_Attack (env : Envelope) (t : ℚ) :
    (env.Attack t).attackTime = t := by
  cases env <;> rfl

/-- Attack sets the `started` flag. -/
theorem Envelope.Started_Attack (env : Envelope) (t : ℚ) : (env.Attack t).Started = true := by
  cases env <;> rfl

/-- Keys are untouched by a write through a stored pointer. -/
theorem NoteMap.keys_modify (m : NoteMap) (f : ℚ) (g : note → note) :
    (m.modify f g).keys = m.keys := by
  unfold NoteMap.keys NoteMap.modify
  simp only [List.map_map]
  apply List.map_congr_left
  intro e _
  show (if e.1 = f then (e.1, g e.2) else e).1 = e.1
  split_ifs <;> rfl

/-- Reading after a write through the pointer stored under `f`: the updated note under
`f`, everything else as before. -/
theorem NoteMap.lookup_modify (m : NoteMap) (f k : ℚ) (g : note → note) :
    (m.modify f g).lookup k = if k = f then (m.lookup k).map g else m.lookup k := by
  unfold NoteMap.lookup NoteMap.modify
  simp only
  induction m.entries with
  | nil => simp
  | cons e l ih =>
    by_cases hek : e.1 = k
    · by_cases hkf : k = f
      · have hef : e.1 = f := hek.trans hkf
        simp [List.find?_cons, hek, hkf, hef]
      · have hef : ¬ e.1 = f := fun h => hkf (hek.symm.trans h)
        simp [List.find?_cons, hek, hkf, hef]
    · have hstep : (if e.1 = f then (e.1, g e.2) else e).1 = e.1 := by split_ifs <;> rfl
      simp only [List.map_cons, List.find?_cons, hstep, hek, decide_False]
      exact ih

/-- What is read under each key after one iteration of the TriggerAttack loop. -/
theorem PolySynth.lookup_attackOne (copy : Synth → Synth) (now : ℚ) (ps : PolySynth)
    (f k : ℚ) :
    (PolySynth.attackOne copy now ps f).notes.lookup k =
      if k = f then
        some { synth := { (ps.newNote copy f).synth with
                          Env := (ps.newNote copy f).synth.Env.Attack now },
               on_ := now, off := 0 }
      else ps.notes.lookup k := by
  unfold PolySynth.attackOne PolySynth.addSynth
  simp only [NoteMap.lookup_modify]
  split_ifs with h
  · subst h
    rw [NoteMap.lookup_insert]
    rfl
  · exact NoteMap.lookup_insert_ne _ f k _ h

/-- C9: after TriggerAttack([F]) twice in a row (at global times now1 then now2) the
live-voice map holds exactly one entry for F; it is the voice built by the second call
(envelope attacked at now2, on-timestamp now2, off-timestamp 0); the entries of all other
frequencies are those of the starting state. -/
theorem C9_retrigger_replaces (copy : Synth → Synth) (ps : PolySynth) (F now1 now2 : ℚ) :
    ((ps.TriggerAttack copy [F] now1).TriggerAttack copy [F] now2).notes.keys.count F = 1 ∧
    (∃ n : note,
      ((ps.TriggerAttack copy [F] now1).TriggerAttack copy [F] now2).notes.lookup F = some n ∧
      n = { synth := { (ps.newNote copy F).synth with
                       Env := (ps.newNote copy F).synth.Env.Attack now2 },
            on_ := now2, off := 0 } ∧
      n.synth.Env.attackTime = now2 ∧ n.synth.Env.Started = true ∧
      n.on_ = now2 ∧ n.off = 0 ∧ n.synth.freq = F) ∧
    (∀ G : ℚ, G ≠ F →
      ((ps.TriggerAttack copy [F] now1).TriggerAttack copy [F] now2).notes.lookup G
        = ps.notes.lookup G) ∧
    ((ps.TriggerAttack copy [F] now1).TriggerAttack copy [F] now2).base = ps.base := by
  have hstep : ∀ (q : PolySynth) (now : ℚ),
      q.TriggerAttack copy [F] now = PolySynth.attackOne copy now q F := fun _ _ => rfl
  have hbase : ∀ (q : PolySynth) (now : ℚ),
      (PolySynth.attackOne copy now q F).base = q.base := fun _ _ => rfl
  have hnew : (PolySynth.attackOne copy now1 ps F).newNote copy F = ps.newNote copy F := rfl
  refine ⟨?_, ⟨_, ?_, rfl, ?_, ?_, rfl, rfl, rfl⟩, ?_, ?_⟩
  · rw [hstep, hstep]
    unfold PolySynth.attackOne
    simp only [NoteMap.keys_modify]
    exact NoteMap.count_insert _ F _
  · rw [hstep, hstep, PolySynth.lookup_attackOne, if_pos rfl, hnew]
  · exact Envelope.attackTime_Attack _ now2
  · exact Envelope.Started_Attack _ now2
  · intro G hG
    rw [hstep, hstep, PolySynth.lookup_attackOne, if_neg hG, PolySynth.lookup_attackOne,
      if_neg hG]
  · rw [hstep, hstep, hbase, hbase]

/-- Keys are untouched by an in-place update of the values. -/
theorem NoteMap.keys_mapValues (m : NoteMap) (g : note → note) :
    (m.mapValues g).keys = m.keys := by
  simp [NoteMap.keys, NoteMap.mapValues, List.map_map, Function.comp_def]

/-- Reading after an in-place update of the values returns the updated value. -/
theorem NoteMap.lookup_mapValues (m : NoteMap) (g : note → note) (k : ℚ) :
    (m.mapValues g).lookup k = (m.lookup k).map g := by
  unfold NoteMap.lookup NoteMap.mapValues
  simp only
  induction m.entries with
  | nil => rfl
  | cons e l ih =>
    by_cases he : e.1 = k
    · simp [List.find?_cons, he]
    · simp only [List.map_cons, List.find?_cons, he, decide_False]
      exact ih

/-- An in-place update that fixes every stored note leaves the map as it is. -/
theorem NoteMap.mapValues_eq_self (m : NoteMap) (g : note → note)
    (h : ∀ e ∈ m.entries, g e.2 = e.2) : m.mapValues g = m := by
  apply NoteMap.ext_entries
  show m.entries.map (fun e => (e.1, g e.2)) = m.entries
  conv_rhs => rw [← List.map_id m.entries]
  apply List.map_congr_left
  intro e he
  rw [h e he]
  rfl

/-- The release loop body never changes the frequency field of a note. -/
theorem note.releaseIf_freq (now f : ℚ) (n : note) :
    (note.releaseIf now f n).synth.freq = n.synth.freq := by
  unfold note.releaseIf
  split_ifs <;> rfl

/-- A note whose frequency is none of the requested ones goes through the release loops
unchanged. -/
theorem note.releaseAll_of_not_mem (now : ℚ) (freqs : List ℚ) (n : note)
    (h : n.synth.freq ∉ freqs) :
    freqs.foldl (fun n f => note.releaseIf now f n) n = n := by
  induction freqs with
  | nil => rfl
  | cons f fs ih =>
    have hf : ¬ n.synth.freq = f := fun h' => h (h' ▸ List.mem_cons_self _ _)
    have hstep : note.releaseIf now f n = n := by simp [note.releaseIf, hf]
    rw [List.foldl_cons, hstep]
    exact ih (fun h' => h (List.mem_cons_of_mem _ h'))

/-- TriggerRelease as one in-place update: every stored note goes through the release loop
body once per requested frequency; the base synth is untouched. -/
theorem PolySynth.TriggerRelease_eq (freqs : List ℚ) (now : ℚ) (ps : PolySynth) :
    ps.TriggerRelease freqs now =
      { base := ps.base,
        notes := ps.notes.mapValues
          (fun n => freqs.foldl (fun n f => note.releaseIf now f n) n) } := by
  induction freqs generalizing ps with
  | nil =>
    have h : ps.notes.mapValues (fun n => n) = ps.notes :=
      NoteMap.mapValues_eq_self _ _ (fun _ _ => rfl)
    simp only [List.foldl_nil, h]
    rfl
  | cons f fs ih =>
    have hstep : ps.TriggerRelease (f :: fs) now =
        PolySynth.TriggerRelease
          { ps with notes := ps.notes.mapValues (note.releaseIf now f) } fs now := rfl
    rw [hstep, ih]
    congr 1
    apply NoteMap.ext_entries
    simp [NoteMap.mapValues, List.map_map, Function.comp_def]

/-- A key is absent from the map exactly when reading it finds nothing. -/
theorem NoteMap.not_mem_keys_of_lookup_none (m : NoteMap) (k : ℚ) (h : m.lookup k = none) :
    k ∉ m.keys := by
  intro hk
  obtain ⟨e, he, hek⟩ := List.mem_map.1 hk
  unfold NoteMap.lookup at h
  rw [Option.map_eq_none', List.find?_eq_none] at h
  have := h e he
  simp [hek] at this

/-- C10: TriggerRelease never adds or removes an entry, leaves the base synth alone, and
never changes a voice whose frequency is not in freqs; so when no live voice has a frequency
of freqs the allocator state is unchanged (in particular when every voice is stored under
its own frequency and no element of freqs is a key of the map). -/
theorem C10_release_frame (ps : PolySynth) (freqs : List ℚ) (now : ℚ) :
    (ps.TriggerRelease freqs now).notes.keys = ps.notes.keys ∧
    (ps.TriggerRelease freqs now).base = ps.base ∧
    (∀ (k : ℚ) (n : note), ps.notes.lookup k = some n → n.synth.freq ∉ freqs →
      (ps.TriggerRelease freqs now).notes.lookup k = some n) ∧
    (∀ k : ℚ, ps.notes.lookup k = none →
      (ps.TriggerRelease freqs now).notes.lookup k = none) ∧
    ((∀ e ∈ ps.notes.entries, e.2.synth.freq ∉ freqs) →
      ps.TriggerRelease freqs now = ps) ∧
    ((∀ e ∈ ps.notes.entries, e.2.synth.freq = e.1) →
      (∀ f ∈ freqs, ps.notes.lookup f = none) → ps.TriggerRelease freqs now = ps) := by
  have hsame : (∀ e ∈ ps.notes.entries, e.2.synth.freq ∉ freqs) →
      ps.TriggerRelease freqs now = ps := by
    intro h
    rw [PolySynth.TriggerRelease_eq, NoteMap.mapValues_eq_self]
    intro e he
    exact note.releaseAll_of_not_mem now freqs e.2 (h e he)
  refine ⟨?_, ?_, ?_, ?_, hsame, ?_⟩
  · rw [PolySynth.TriggerRelease_eq]
    exact NoteMap.keys_mapValues _ _
  · rw [PolySynth.TriggerRelease_eq]
  · intro k n hk hn
    rw [PolySynth.TriggerRelease_eq]
    simp only [NoteMap.lookup_mapValues, hk, Option.map_some']
    rw [note.releaseAll_of_not_mem now freqs n hn]
  · intro k hk
    rw [PolySynth.TriggerRelease_eq]
    simp only [NoteMap.lookup_mapValues, hk, Option.map_none']
  · intro hkey hnone
    apply hsame
    intro e he hmem
    apply NoteMap.not_mem_keys_of_lookup_none ps.notes _ (hnone _ hmem)
    rw [hkey e he]
    exact List.mem_map_of_mem Prod.fst he

/-! ## PolySynth.Stream -/

/-- Reading a deleted key finds nothing. -/
theorem NoteMap.lookup_erase (m : NoteMap) (f : ℚ) : (m.erase f).lookup f = none := by
  unfold NoteMap.lookup NoteMap.erase
  rw [Option.map_eq_none', List.find?_eq_none]
  intro e he
  have := (List.mem_filter.1 he).2
  simpa using this

/-- Deleting `f` does not change what is read under another key. -/
theorem NoteMap.lookup_erase_ne (m : NoteMap) (f g : ℚ) (h : g ≠ f) :
    (m.erase f).lookup g = m.lookup g := by
  unfold NoteMap.lookup NoteMap.erase
  rw [NoteMap.find_filter_ne _ f g h]

/-- What one iteration of the PolySynth.Stream loop leaves under the visited key. -/
theorem PolySynth.streamStep_lookup_self (t : ℚ) (acc : NoteMap × ℚ) (e : ℚ × note) :
    (PolySynth.streamStep t acc e).1.lookup e.1 =
      if e.2.removedAt t = true then none else some (e.2.streamed t) := by
  unfold PolySynth.streamStep note.removedAt note.streamed
  by_cases h : (e.2.synth.Stream t).2 = 0 ∧ (e.2.synth.Stream t).1.Finished = true ∧
      e.2.off > e.2.on_
  · simp only [h, and_self, if_true, decide_True]
    exact NoteMap.lookup_erase _ _
  · simp only [h, if_false, decide_False, Bool.false_eq_true]
    exact NoteMap.lookup_insert _ _ _

/-- One iteration of the PolySynth.Stream loop leaves every other key as it was. -/
theorem PolySynth.streamStep_lookup_ne (t : ℚ) (acc : NoteMap × ℚ) (e : ℚ × note) (k : ℚ)
    (hk : k ≠ e.1) : (PolySynth.streamStep t acc e).1.lookup k = acc.1.lookup k := by
  unfold PolySynth.streamStep
  by_cases h : (e.2.synth.Stream t).2 = 0 ∧ (e.2.synth.Stream t).1.Finished = true ∧
      e.2.off > e.2.on_
  · simp only [h, and_self, if_true]
    rw [NoteMap.lookup_erase_ne _ _ _ hk, NoteMap.lookup_insert_ne _ _ _ _ hk]
  · simp only [h, if_false]
    rw [NoteMap.lookup_insert_ne _ _ _ _ hk]

/-- One iteration of the PolySynth.Stream loop adds the visited voice's sample. -/
theorem PolySynth.streamStep_sum (t : ℚ) (acc : NoteMap × ℚ) (e : ℚ × note) :
    (PolySynth.streamStep t acc e).2 = acc.2 + (e.2.synth.Stream t).2 := rfl

/-- The PolySynth.Stream loop over a list of entries with distinct keys: the sum grows by
every visited sample, a visited key ends deleted or holding the streamed voice, any other
key is as in the starting map. -/
theorem PolySynth.stream_loop (t : ℚ) (l : List (ℚ × note)) (hl : (l.map Prod.fst).Nodup)
    (acc : NoteMap × ℚ) :
    (l.foldl (PolySynth.streamStep t) acc).2
        = acc.2 + (l.map (fun e => (e.2.synth.Stream t).2)).sum ∧
    ∀ k : ℚ, (l.foldl (PolySynth.streamStep t) acc).1.lookup k =
      match l.find? (fun e => decide (e.1 = k)) with
      | none => acc.1.lookup k
      | some e => if e.2.removedAt t = true then none else some (e.2.streamed t) := by
  induction l generalizing acc with
  | nil => exact ⟨by simp, fun k => rfl⟩
  | cons e l ih =>
    rw [List.map_cons, List.nodup_cons] at hl
    obtain ⟨hsum, hlook⟩ := ih hl.2 (PolySynth.streamStep t acc e)
    constructor
    · rw [List.foldl_cons, hsum, PolySynth.streamStep_sum, List.map_cons, List.sum_cons]
      ring
    · intro k
      rw [List.foldl_cons, hlook k]
      by_cases hk : e.1 = k
      · have hnone : l.find? (fun e => decide (e.1 = k)) = none := by
          rw [List.find?_eq_none]
          intro x hx
          have hne : x.1 ≠ k := by
            intro hxk
            exact hl.1 (hk ▸ hxk ▸ List.mem_map_of_mem Prod.fst hx)
          simpa using hne
        simp only [hnone, List.find?_cons, hk, decide_True]
        rw [← hk]
        exact PolySynth.streamStep_lookup_self t acc e
      · simp only [List.find?_cons, hk, decide_False]
        cases hfind : l.find? (fun e => decide (e.1 = k)) with
        | none => exact PolySynth.streamStep_lookup_ne t acc e k (fun h => hk h.symm)
        | some x => rfl

/-- PolySynth.Stream returns the sum of the samples of the voices live at the start. -/
theorem PolySynth.Stream_sum (ps : PolySynth) (t : ℚ) :
    (ps.Stream t).2 = (ps.notes.entries.map (fun e => (e.2.synth.Stream t).2)).sum := by
  unfold PolySynth.Stream
  simp only
  rw [(PolySynth.stream_loop t ps.notes.entries ps.notes.nodup (ps.notes, 0)).1]
  ring

/-- What is read under each key after PolySynth.Stream: nothing when the voice passed the
deletion test, else the streamed voice. -/
theorem PolySynth.lookup_Stream (ps : PolySynth) (t : ℚ) (k : ℚ) :
    (ps.Stream t).1.notes.lookup k =
      (ps.notes.lookup k).bind
        (fun n => if n.removedAt t = true then none else some (n.streamed t)) := by
  unfold PolySynth.Stream
  simp only
  rw [(PolySynth.stream_loop t ps.notes.entries ps.notes.nodup (ps.notes, 0)).2 k]
  unfold NoteMap.lookup
  cases ps.notes.entries.find? (fun e => decide (e.1 = k)) with
  | none => rfl
  | some e => rfl

/-- C12: PolySynth.Stream(t) returns the sum of Synth.Stream(t) over every voice live when
the call began (removed voices included); afterwards the live set is the former one minus
the voices whose sample was 0, whose Finished latch is set and whose off-timestamp is
strictly greater than the on-timestamp (the others stay, streamed); a voice with off <= on
is never removed. -/
theorem C12_polysynth_stream (ps : PolySynth) (t : ℚ) :
    (ps.Stream t).2 = (ps.notes.entries.map (fun e => (e.2.synth.Stream t).2)).sum ∧
    (∀ k : ℚ, (ps.Stream t).1.notes.lookup k =
      (ps.notes.lookup k).bind
        (fun n =>
          if (n.synth.Stream t).2 = 0 ∧ (n.synth.Stream t).1.Finished = true ∧ n.off > n.on_
          then none else some { n with synth := (n.synth.Stream t).1 })) ∧
    (∀ (k : ℚ) (n : note), ps.notes.lookup k = some n → n.off ≤ n.on_ →
      (ps.Stream t).1.notes.lookup k = some { n with synth := (n.synth.Stream t).1 }) ∧
    (ps.Stream t).1.base = ps.base := by
  have hlook : ∀ k : ℚ, (ps.Stream t).1.notes.lookup k =
      (ps.notes.lookup k).bind
        (fun n =>
          if (n.synth.Stream t).2 = 0 ∧ (n.synth.Stream t).1.Finished = true ∧ n.off > n.on_
          then none else some { n with synth := (n.synth.Stream t).1 }) := by
    intro k
    rw [PolySynth.lookup_Stream]
    congr 1
    funext n
    simp [note.removedAt, note.streamed]
  refine ⟨PolySynth.Stream_sum ps t, hlook, ?_, rfl⟩
  intro k n hk hoff
  rw [hlook k, hk]
  have : ¬ n.off > n.on_ := not_lt.2 hoff
  simp [this]

/-- The sample returned by Synth.Stream. -/
theorem Synth.Stream_val (s : Synth) (t : ℚ) :
    (s.Stream t).2 = s.amp * s.streamFunc (s.Env.GetAmplitude t) s.freq t := by
  unfold Synth.Stream
  simp only
  split_ifs <;> rfl

/-- The latch after Synth.Stream: set before, or amplitude <= 0 read on a started
envelope by this call. -/
theorem Synth.Stream_finished (s : Synth) (t : ℚ) :
    (s.Stream t).1.finished =
      (s.finished || decide (s.Env.GetAmplitude t ≤ 0 ∧ s.Env.Started = true)) := by
  unfold Synth.Stream
  simp only
  split_ifs with h
  · simp [h]
  · simp [h]

/-- The entry read under `F` right after TriggerAttack([F]) at global time `now`. -/
theorem PolySynth.lookup_TriggerAttack_single (copy : Synth → Synth) (ps : PolySynth)
    (F now : ℚ) :
    (ps.TriggerAttack copy [F] now).notes.lookup F =
      some { synth := { (ps.newNote copy F).synth with
                        Env := (ps.newNote copy F).synth.Env.Attack now },
             on_ := now, off := 0 } := by
  have hstep : ps.TriggerAttack copy [F] now = PolySynth.attackOne copy now ps F := rfl
  rw [hstep, PolySynth.lookup_attackOne, if_pos rfl]

/-- What is read under each key after TriggerRelease: the stored voice sent through the
release loop body once per requested frequency. -/
theorem PolySynth.lookup_TriggerRelease (ps : PolySynth) (freqs : List ℚ) (now k : ℚ) :
    (ps.TriggerRelease freqs now).notes.lookup k =
      (ps.notes.lookup k).map (fun n => freqs.foldl (fun n f => note.releaseIf now f n) n) := by
  rw [PolySynth.TriggerRelease_eq]
  exact NoteMap.lookup_mapValues _ _ k

/-- C11 fails as stated: a voice of a PolySynth over a base synth of amplitude 0 (ASR
envelope 1, 1, 1) is attacked at 0, streamed at 0 (amplitude 0 at the attack instant sets
the latch), released at 1/2 and streamed at 1/2: that Stream call deletes it although its
envelope reads 1/2 at that time. -/
theorem C11_counterexample :
    (((((NewPolySynth (NewSynth (fun a _ _ => a) (Envelope.asr (NewASREnvelope 1 1 1)) 0)
        ).TriggerAttack id [440] 0).Stream 0).1.TriggerRelease [440] (1/2)).notes.lookup 440
      ).map (fun n => n.synth.Env.GetAmplitude (1/2)) = some (1/2) ∧
    ((((((NewPolySynth (NewSynth (fun a _ _ => a) (Envelope.asr (NewASREnvelope 1 1 1)) 0)
        ).TriggerAttack id [440] 0).Stream 0).1.TriggerRelease [440] (1/2)).Stream (1/2)
      ).1.notes.lookup 440) = none := by
  constructor
  · rw [PolySynth.lookup_TriggerRelease, PolySynth.lookup_Stream,
      PolySynth.lookup_TriggerAttack_single]
    norm_num [note.removedAt, note.streamed, Synth.Stream, PolySynth.newNote, NewPolySynth,
      NewSynth, NewASREnvelope, Synth.SetFreq, Synth.SetAmp, Synth.Finished,
      Envelope.Attack, Envelope.Release, Envelope.GetAmplitude, Envelope.Started,
      ASREnvelope.Attack, ASREnvelope.Release, ASREnvelope.GetAmplitude,
      ASREnvelope.Started, note.releaseIf]
  · rw [PolySynth.lookup_Stream, PolySynth.lookup_TriggerRelease, PolySynth.lookup_Stream,
      PolySynth.lookup_TriggerAttack_single]
    norm_num [note.removedAt, note.streamed, Synth.Stream, PolySynth.newNote, NewPolySynth,
      NewSynth, NewASREnvelope, Synth.SetFreq, Synth.SetAmp, Synth.Finished,
      Envelope.Attack, Envelope.Release, Envelope.GetAmplitude, Envelope.Started,
      ASREnvelope.Attack, ASREnvelope.Release, ASREnvelope.GetAmplitude,
      ASREnvelope.Started, note.releaseIf]

/-- C11 (amended): if PolySynth.Stream(t) deletes the entry of a voice, then that voice's
sample at t is 0, its Finished latch is set and its off-timestamp is greater than its
on-timestamp (a release was recorded after the attack); its envelope's GetAmplitude(t) is 0
whenever the sample can only vanish with the envelope (the voice's amp is not 0 and its
stream function is not 0 at a non-zero amplitude). -/
theorem C11_removed_voice (ps : PolySynth) (t k : ℚ) (n : note)
    (hlive : ps.notes.lookup k = some n)
    (hgone : (ps.Stream t).1.notes.lookup k = none) :
    (n.synth.Stream t).2 = 0 ∧ (n.synth.Stream t).1.Finished = true ∧ n.on_ < n.off ∧
    (n.synth.amp ≠ 0 → (∀ a : ℚ, n.synth.streamFunc a n.synth.freq t = 0 → a = 0) →
      n.synth.Env.GetAmplitude t = 0) := by
  rw [PolySynth.lookup_Stream, hlive] at hgone
  have hrem : n.removedAt t = true := by
    by_contra h
    simp [h] at hgone
  unfold note.removedAt at hrem
  rw [decide_eq_true_iff] at hrem
  obtain ⟨hval, hfin, hoff⟩ := hrem
  refine ⟨hval, hfin, hoff, ?_⟩
  intro hamp hfun
  rw [Synth.Stream_val] at hval
  rcases mul_eq_zero.1 hval with h | h
  · exact absurd h hamp
  · exact hfun _ h

/-- Witness for the amended C11: the voice of `exampleBase` attacked at 0 and released at 2
is deleted by Stream(3), and its envelope reads 0 at 3. -/
theorem C11_removed_voice_witness :
    (exampleReleasedNote.synth.Stream 3).2 = 0 ∧
    (exampleReleasedNote.synth.Stream 3).1.Finished = true ∧
    exampleReleasedNote.on_ < exampleReleasedNote.off ∧
    (exampleReleasedNote.synth.amp ≠ 0 →
      (∀ a : ℚ, exampleReleasedNote.synth.streamFunc a exampleReleasedNote.synth.freq 3 = 0 →
        a = 0) →
      exampleReleasedNote.synth.Env.GetAmplitude 3 = 0) :=
  C11_removed_voice
    (((NewPolySynth exampleBase).TriggerAttack id [440] 0).TriggerRelease [440] 2) 3 440
    exampleReleasedNote
    (by
      rw [PolySynth.lookup_TriggerRelease, PolySynth.lookup_TriggerAttack_single]
      simp [exampleReleasedNote, exampleBase, PolySynth.newNote, NewPolySynth, NewSynth,
        NewASREnvelope, Synth.SetFreq, Synth.SetAmp, Envelope.Attack, Envelope.Release,
        ASREnvelope.Attack, ASREnvelope.Release, note.releaseIf])
    (by
      rw [PolySynth.lookup_Stream, PolySynth.lookup_TriggerRelease,
        PolySynth.lookup_TriggerAttack_single]
      norm_num [exampleBase, note.removedAt, note.streamed, Synth.Stream, PolySynth.newNote,
        NewPolySynth, NewSynth, NewASREnvelope, Synth.SetFreq, Synth.SetAmp, Synth.Finished,
        Envelope.Attack, Envelope.Release, Envelope.GetAmplitude, Envelope.Started,
        ASREnvelope.Attack, ASREnvelope.Release, ASREnvelope.GetAmplitude,
        ASREnvelope.Started, note.releaseIf])

/-! ## The Finished latch of a Synth -/

/-- No call on a Synth clears the latch. -/
theorem Synth.finished_call (s : Synth) (c : SynthCall) (h : s.finished = true) :
    (s.call c).finished = true := by
  cases c with
  | stream t =>
    show (s.Stream t).1.finished = true
    rw [Synth.Stream_finished, h]
    rfl
  | setFreq f => exact h
  | setAmp a => exact h
  | triggerAttack f now => exact h
  | triggerRelease now => exact h

/-- The latch after one call: set before, or set by this call being a Stream that reads an
amplitude <= 0 on a started envelope. -/
theorem Synth.finished_call_eq (s : Synth) (c : SynthCall) :
    (s.call c).finished = (s.finished || s.observed [c]) := by
  cases c with
  | stream t =>
    show (s.Stream t).1.finished = _
    rw [Synth.Stream_finished]
    simp [Synth.observed]
  | setFreq f => simp [Synth.observed, Synth.call, Synth.SetFreq]
  | setAmp a => simp [Synth.observed, Synth.call, Synth.SetAmp]
  | triggerAttack f now => simp [Synth.observed, Synth.call, Synth.TriggerAttack, Synth.SetFreq]
  | triggerRelease now => simp [Synth.observed, Synth.call, Synth.TriggerRelease]

/-- The latch after a run of calls: set before the run, or set by an observing Stream call
of the run. -/
theorem Synth.finished_calls_eq (cs : List SynthCall) (s : Synth) :
    (s.calls cs).finished = (s.finished || s.observed cs) := by
  induction cs generalizing s with
  | nil => simp [Synth.calls, Synth.observed]
  | cons c cs ih =>
    have hstep : s.calls (c :: cs) = (s.call c).calls cs := rfl
    rw [hstep, ih, Synth.finished_call_eq]
    simp only [Synth.observed, Bool.or_false, Bool.or_assoc]

/-- C13: Synth.Finished() is a latch. A Stream(t) call that reads an envelope amplitude
<= 0 on a started envelope makes Finished() true; once true it stays true after every
sequence of Stream, SetFreq, SetAmp, TriggerAttack and TriggerRelease calls; and on a synth
from NewSynth it is true exactly when some Stream call so far made that observation (false
before any). -/
theorem C13_finished_latch (s : Synth) (cs : List SynthCall) (t : ℚ) :
    (s.Env.GetAmplitude t ≤ 0 → s.Env.Started = true → (s.Stream t).1.Finished = true) ∧
    (s.Finished = true → (s.calls cs).Finished = true) ∧
    ((s.calls cs).Finished = (s.Finished || s.observed cs)) ∧
    (∀ (f : ℚ → ℚ → ℚ → ℚ) (env : Envelope) (a : ℚ),
      ((NewSynth f env a).calls cs).Finished = (NewSynth f env a).observed cs) := by
  refine ⟨?_, ?_, Synth.finished_calls_eq cs s, ?_⟩
  · intro h1 h2
    show (s.Stream t).1.finished = true
    rw [Synth.Stream_finished]
    simp [h1, h2]
  · intro h
    show (s.calls cs).finished = true
    rw [Synth.finished_calls_eq]
    have h' : s.finished = true := h
    simp [h']
  · intro f env a
    show ((NewSynth f env a).calls cs).finished = _
    rw [Synth.finished_calls_eq]
    simp [NewSynth]

/-! ## PCM encoding -/

/-- Truncation of an integer value is that integer. -/
theorem truncToInt_intCast (z : ℤ) : truncToInt (z : ℚ) = z := by
  unfold truncToInt
  split_ifs <;> simp

/-- Truncation keeps a value inside a symmetric integer bound. -/
theorem truncToInt_bounds (x : ℚ) (b : ℤ) (h1 : -(b : ℚ) ≤ x) (h2 : x ≤ b) :
    -b ≤ truncToInt x ∧ truncToInt x ≤ b := by
  unfold truncToInt
  split_ifs with h
  · constructor
    · have h0 : (0 : ℤ) ≤ ⌊x⌋ := Int.floor_nonneg.2 h
      have hb : (0 : ℚ) ≤ b := le_trans h h2
      have hb' : (0 : ℤ) ≤ b := by exact_mod_cast hb
      omega
    · exact Int.floor_le_iff.2 (by linarith)
  · constructor
    · exact Int.le_ceil_iff.2 (by push_cast; linarith)
    · have h0 : ⌈x⌉ ≤ 0 := Int.ceil_le.2 (by push_cast; linarith [not_le.1 h])
      have hb : (0 : ℚ) ≤ b := by linarith [not_le.1 h]
      have hb' : (0 : ℤ) ≤ b := by exact_mod_cast hb
      omega

/-- The arithmetic shift by 8 is the floor division by 256. -/
theorem shiftRight_eight (z : ℤ) : Int.shiftRight z 8 = z / 256 := by
  have := Int.shiftRight_eq_div_pow z 8
  simpa using this

/-- The two bytes of sampleToPCM when the scaled sample is the integer `z`. -/
theorem sampleToPCM_of_int (val : ℚ) (z : ℤ) (h : val * (2 ^ 15 - 1) = (z : ℚ)) :
    sampleToPCM val = [byte (int16 (z : ℚ)), byte (int16 (z : ℚ) / 256)] := by
  unfold sampleToPCM
  simp only [h, shiftRight_eight]

/-- The zero sample is encoded as the bytes 0, 0. -/
theorem sampleToPCM_zero : sampleToPCM 0 = [0, 0] := by
  rw [sampleToPCM_of_int 0 0 (by norm_num)]
  simp only [int16, truncToInt_intCast]
  decide

/-- Splitting a 16-bit value in range into low and high byte and reading the bytes back
little-endian returns the value. -/
theorem decode_bytes (n : ℤ) (h1 : -32767 ≤ n) (h2 : n ≤ 32767) :
    decodeInt16LE (byte ((n + 2 ^ 15) % 2 ^ 16 - 2 ^ 15))
      (byte (((n + 2 ^ 15) % 2 ^ 16 - 2 ^ 15) / 256)) = n ∧
    byte ((n + 2 ^ 15) % 2 ^ 16 - 2 ^ 15) < 256 ∧
    byte (((n + 2 ^ 15) % 2 ^ 16 - 2 ^ 15) / 256) < 256 := by
  have hw : (n + 2 ^ 15) % 2 ^ 16 - 2 ^ 15 = n := by
    norm_num
    omega
  rw [hw]
  unfold decodeInt16LE byte
  have e1 : ((n % 256).toNat : ℤ) = n % 256 := Int.toNat_of_nonneg (by omega)
  have e2 : ((n / 256 % 256).toNat : ℤ) = n / 256 % 256 := Int.toNat_of_nonneg (by omega)
  refine ⟨?_, ?_, ?_⟩
  · rw [e1, e2]
    split_ifs <;> omega
  · omega
  · omega

/-- C16: for a sample val in [-1, 1], sampleToPCM(val) is two bytes [low, high], the
little-endian two's-complement 16-bit encoding of n = trunc(val * 32767): reading
low + 256*high as a signed 16-bit integer gives n, and -32767 <= n <= 32767; val = 1 gives
0xFF, 0x7F, val = -1 gives 0x01, 0x80, val = 0 gives 0x00, 0x00. -/
theorem C16_sampleToPCM_encoding (val : ℚ) (h1 : -1 ≤ val) (h2 : val ≤ 1) :
    (∃ low high : ℕ, sampleToPCM val = [low, high] ∧ low < 256 ∧ high < 256 ∧
      decodeInt16LE low high = truncToInt (val * 32767)) ∧
    -32767 ≤ truncToInt (val * 32767) ∧ truncToInt (val * 32767) ≤ 32767 ∧
    sampleToPCM 1 = [255, 127] ∧ sampleToPCM (-1) = [1, 128] ∧ sampleToPCM 0 = [0, 0] := by
  obtain ⟨hlo, hhi⟩ := truncToInt_bounds (val * 32767) 32767
    (by push_cast; linarith) (by push_cast; linarith)
  obtain ⟨hdec, hl, hh⟩ := decode_bytes (truncToInt (val * 32767)) hlo hhi
  have hscale : val * (2 ^ 15 - 1) = val * 32767 := by norm_num
  refine ⟨⟨_, _, ?_, hl, hh, hdec⟩, hlo, hhi, ?_, ?_, sampleToPCM_zero⟩
  · unfold sampleToPCM
    simp only [hscale, shiftRight_eight, int16]
  · rw [sampleToPCM_of_int 1 32767 (by norm_num)]
    simp only [int16, truncToInt_intCast]
    decide
  · rw [sampleToPCM_of_int (-1) (-32767) (by norm_num)]
    simp only [int16, truncToInt_intCast]
    decide

/-- Witness for C16: the sample 1/2. -/
theorem C16_sampleToPCM_encoding_witness :
    (∃ low high : ℕ, sampleToPCM (1/2) = [low, high] ∧ low < 256 ∧ high < 256 ∧
      decodeInt16LE low high = truncToInt (1/2 * 32767)) ∧
    -32767 ≤ truncToInt (1/2 * 32767) ∧ truncToInt (1/2 * 32767) ≤ 32767 ∧
    sampleToPCM 1 = [255, 127] ∧ sampleToPCM (-1) = [1, 128] ∧ sampleToPCM 0 = [0, 0] :=
  C16_sampleToPCM_encoding (1/2) (by norm_num) (by norm_num)

/-! ## Rendering silence -/

/-- Synth.Stream on a synth whose envelope has not started: the synth is unchanged and the
sample is `amp * streamFunc(0, freq, t)`. -/
theorem Synth.Stream_of_not_started (s : Synth) (t : ℚ) (h : s.Env.Started = false) :
    s.Stream t = (s, s.amp * s.streamFunc 0 s.freq t) := by
  unfold Synth.Stream
  simp [h, Envelope.GetAmplitude_of_not_started s.Env h t]

/-- PolySynth.Stream on an allocator without voices: unchanged allocator, sample 0. -/
theorem PolySynth.Stream_of_empty (ps : PolySynth) (t : ℚ) (h : ps.notes.entries = []) :
    ps.Stream t = (ps, 0) := by
  unfold PolySynth.Stream
  simp only [h, List.foldl_nil]

/-- A source that was never triggered and is silent at amplitude 0 streams 0 and stays as
it is. -/
theorem Source.Stream_silent (src : Source) (t : ℚ) (h1 : src.Untriggered)
    (h2 : src.SilentAtZero) : src.Stream t = (src, 0) := by
  cases src with
  | synth s =>
    have h1' : s.Env.Started = false := h1
    have h2' : ∀ f t : ℚ, s.streamFunc 0 f t = 0 := h2
    simp [Source.Stream, Synth.Stream_of_not_started s t h1', h2']
  | poly ps =>
    have h1' : ps.notes.entries = [] := h1
    simp [Source.Stream, PolySynth.Stream_of_empty ps t h1']

/-- The mixer loop over silent sources leaves the accumulated sum and appends the sources
unchanged. -/
theorem Mixer.streamSources_loop (t : ℚ) (srcs : List Source)
    (h1 : ∀ src ∈ srcs, src.Untriggered) (h2 : ∀ src ∈ srcs, src.SilentAtZero)
    (acc : List Source × ℚ) :
    srcs.foldl (fun acc src => (acc.1 ++ [(src.Stream t).1], acc.2 + (src.Stream t).2)) acc
      = (acc.1 ++ srcs, acc.2) := by
  induction srcs generalizing acc with
  | nil => simp
  | cons src srcs ih =>
    rw [List.foldl_cons,
      ih (fun x hx => h1 x (List.mem_cons_of_mem _ hx))
        (fun x hx => h2 x (List.mem_cons_of_mem _ hx)),
      Source.Stream_silent src t (h1 src (List.mem_cons_self _ _))
        (h2 src (List.mem_cons_self _ _))]
    simp

/-- The mixer over silent sources streams 0 and changes nothing. -/
theorem Mixer.streamSources_silent (t : ℚ) (srcs : List Source)
    (h1 : ∀ src ∈ srcs, src.Untriggered) (h2 : ∀ src ∈ srcs, src.SilentAtZero) :
    Mixer.streamSources t srcs = (srcs, 0) := by
  unfold Mixer.streamSources
  rw [Mixer.streamSources_loop t srcs h1 h2]
  simp

/-- C14 fails as stated: a Synth whose stream function is the repository's hard Square
oscillator streams amp * (-1) at envelope amplitude 0, so a global mixer holding such a
never-triggered Synth (amp 1) streams -1 and the first rendered tick is the bytes 0x01,
0x80. The value does not depend on the sine stand-in, whose factor is 0. -/
theorem C14_counterexample :
    (Source.synth (NewSynth (fun amp freq t => Square.Stream (fun x => x) 3
        (NewSquare amp freq) t) (Envelope.ad (NewADEnvelope 1 (1/10) 1)) 1)).Untriggered ∧
    (Mixer.streamSources 0 [Source.synth (NewSynth (fun amp freq t =>
        Square.Stream (fun x => x) 3 (NewSquare amp freq) t)
        (Envelope.ad (NewADEnvelope 1 (1/10) 1)) 1)]).2 = -1 ∧
    renderTicks (1/44100) 1 0 [Source.synth (NewSynth (fun amp freq t =>
        Square.Stream (fun x => x) 3 (NewSquare amp freq) t)
        (Envelope.ad (NewADEnvelope 1 (1/10) 1)) 1)] = [[1, 128]] := by
  have hval : (Mixer.streamSources 0 [Source.synth (NewSynth (fun amp freq t =>
        Square.Stream (fun x => x) 3 (NewSquare amp freq) t)
        (Envelope.ad (NewADEnvelope 1 (1/10) 1)) 1)]).2 = -1 := by
    simp [Mixer.streamSources, Source.Stream, Synth.Stream_val, NewSynth,
      Envelope.GetAmplitude, ADEnvelope.GetAmplitude, NewADEnvelope, Square.Stream,
      NewSquare, OscParams.Amp]
  refine ⟨rfl, hval, ?_⟩
  simp only [renderTicks, hval]
  rw [sampleToPCM_of_int (-1) (-32767) (by norm_num)]
  simp only [int16, truncToInt_intCast]
  decide

/-- C14 (amended): for a global mixer holding any number of never-triggered PolySynths and
never-triggered Synths whose stream function is 0 at amplitude 0, Stream(t) is 0 for every
t and changes no state, so every rendered tick is the zero sample, encoded by sampleToPCM
as the bytes 0, 0. -/
theorem C14_render_silence (srcs : List Source) (h1 : ∀ src ∈ srcs, src.Untriggered)
    (h2 : ∀ src ∈ srcs, src.SilentAtZero) (dt t : ℚ) (n : ℕ) :
    (Mixer.streamSources t srcs).2 = 0 ∧ (Mixer.streamSources t srcs).1 = srcs ∧
    renderTicks dt n t srcs = List.replicate n [0, 0] ∧ sampleToPCM 0 = [0, 0] := by
  refine ⟨by rw [Mixer.streamSources_silent t srcs h1 h2],
    by rw [Mixer.streamSources_silent t srcs h1 h2], ?_, sampleToPCM_zero⟩
  induction n generalizing t with
  | zero => rfl
  | succ n ih =>
    rw [renderTicks, Mixer.streamSources_silent t srcs h1 h2, List.replicate_succ]
    simp only [sampleToPCM_zero]
    rw [ih]

/-- Witness for the amended C14: a mixer holding a fresh Synth with a stream function
proportional to the amplitude (AD envelope of the Bell) and a fresh PolySynth. -/
theorem C14_render_silence_witness :
    (Mixer.streamSources 0
      [Source.synth (NewSynth (fun a f t => a * (f + t)) (Envelope.ad (NewADEnvelope 1 (1/10) 1))
        (1/5)), Source.poly (NewPolySynth exampleBase)]).2 = 0 ∧
    (Mixer.streamSources 0
      [Source.synth (NewSynth (fun a f t => a * (f + t)) (Envelope.ad (NewADEnvelope 1 (1/10) 1))
        (1/5)), Source.poly (NewPolySynth exampleBase)]).1 =
      [Source.synth (NewSynth (fun a f t => a * (f + t)) (Envelope.ad (NewADEnvelope 1 (1/10) 1))
        (1/5)), Source.poly (NewPolySynth exampleBase)] ∧
    renderTicks (1/44100) 3 0
      [Source.synth (NewSynth (fun a f t => a * (f + t)) (Envelope.ad (NewADEnvelope 1 (1/10) 1))
        (1/5)), Source.poly (NewPolySynth exampleBase)] = List.replicate 3 [0, 0] ∧
    sampleToPCM 0 = [0, 0] :=
  C14_render_silence _
    (by
      intro src hsrc
      simp only [List.mem_cons, List.mem_singleton, List.not_mem_nil, or_false] at hsrc
      rcases hsrc with h | h <;> subst h <;> rfl)
    (by
      intro src hsrc
      simp only [List.mem_cons, List.mem_singleton, List.not_mem_nil, or_false] at hsrc
      rcases hsrc with h | h <;> subst h
      · intro f t
        simp [NewSynth]
      · trivial)
    (1/44100) 0 3

/-! ## Envelope constructors and Finished -/

/-- C17 fails as stated: the constructors return an envelope for zero and negative
durations too (no error is reported); the one with AttackDuration 0 can be attacked and
read like any other. -/
theorem C17_counterexample :
    (NewADEnvelope 1 0 1).AttackDuration = 0 ∧
    ((NewADEnvelope 1 0 1).Attack 0).GetAmplitude (1/2) = 1/2 ∧
    (NewASREnvelope 1 1 (-1)).ReleaseDuration = -1 ∧
    (NewADSREnvelope 1 (1/2) 1 0 1).DecayDuration = 0 := by
  norm_num [NewADEnvelope, NewASREnvelope, NewADSREnvelope, ADEnvelope.Attack,
    ADEnvelope.GetAmplitude]

/-- C17 (amended): the envelope constructors do not validate their arguments: for all
amplitude and duration arguments (zero and negative durations included) they return the
envelope holding exactly these shape parameters, not started, with zero timestamps, which
reads amplitude 0 until it is attacked. -/
theorem C17_constructors_accept_all (amp aa sa ad dd rd : ℚ) :
    NewADEnvelope amp ad dd =
      { Amplitude := amp, AttackDuration := ad, DecayDuration := dd, attackTime := 0,
        started := false } ∧
    NewASREnvelope amp ad rd =
      { AttackDuration := ad, ReleaseDuration := rd, Amplitude := amp, attackTime := 0,
        releaseTime := 0, isOn := false, started := false } ∧
    NewADSREnvelope aa sa ad dd rd =
      { AttackDuration := ad, DecayDuration := dd, ReleaseDuration := rd,
        AttackAmplitude := aa, SustainAmplitude := sa, attackTime := 0, releaseTime := 0,
        isOn := false, finished := false, started := false } ∧
    (∀ t : ℚ, (NewADEnvelope amp ad dd).GetAmplitude t = 0 ∧
      (NewASREnvelope amp ad rd).GetAmplitude t = 0 ∧
      (NewADSREnvelope aa sa ad dd rd).GetAmplitude t = 0) := by
  refine ⟨rfl, rfl, rfl, fun t => ⟨?_, ?_, ?_⟩⟩
  · exact Envelope.GetAmplitude_of_not_started (.ad (NewADEnvelope amp ad dd)) rfl t
  · exact Envelope.GetAmplitude_of_not_started (.asr (NewASREnvelope amp ad rd)) rfl t
  · exact Envelope.GetAmplitude_of_not_started (.adsr (NewADSREnvelope aa sa ad dd rd)) rfl t

/-- C18 at its failing input: an ASR envelope (1, 1, 1) and the Harmonica ADSR envelope,
attacked at 0 and never released, are on and read their sustain amplitude at global time 5,
yet Finished() is true there (it compares 5 with the zero release timestamp plus
ReleaseDuration). -/
theorem C18_finished_while_sounding :
    ((NewASREnvelope 1 1 1).Attack 0).isOn = true ∧
    ((NewASREnvelope 1 1 1).Attack 0).Started = true ∧
    ((NewASREnvelope 1 1 1).Attack 0).GetAmplitude 5 = 1 ∧
    ((NewASREnvelope 1 1 1).Attack 0).Finished 5 = true ∧
    ((NewADSREnvelope 1 (19/20) (1/20) (1/10) (1/5)).Attack 0).isOn = true ∧
    ((NewADSREnvelope 1 (19/20) (1/20) (1/10) (1/5)).Attack 0).GetAmplitude 5 = 19/20 ∧
    ((NewADSREnvelope 1 (19/20) (1/20) (1/10) (1/5)).Attack 0).Finished 5 = true := by
  norm_num [NewASREnvelope, NewADSREnvelope, ASREnvelope.Attack, ADSREnvelope.Attack,
    ASREnvelope.GetAmplitude, ADSREnvelope.GetAmplitude, ASREnvelope.Finished,
    ADSREnvelope.Finished, ASREnvelope.Started]

/-! ## Hard square oscillator -/

/-- C19: the hard Square oscillator streams exactly 1 or -1: 1 when
amp * sin(2*pi*freq*t) > 0 and -1 otherwise; the amplitude only enters the sign test, and
with amplitude 0 the output is -1 at every t. -/
theorem C19_square_stream (sin : ℚ → ℚ) (pi amp freq t : ℚ) :
    ((NewSquare amp freq).Stream sin pi t = 1 ∨ (NewSquare amp freq).Stream sin pi t = -1) ∧
    ((NewSquare amp freq).Stream sin pi t = 1 ↔ amp * sin (2 * pi * freq * t) > 0) ∧
    ((NewSquare amp freq).Stream sin pi t = -1 ↔ ¬ (amp * sin (2 * pi * freq * t) > 0)) ∧
    (NewSquare 0 freq).Stream sin pi t = -1 := by
  unfold Square.Stream NewSquare OscParams.Amp OscParams.Freq W
  simp only
  refine ⟨?_, ?_, ?_, ?_⟩
  · split_ifs
    · exact Or.inl rfl
    · exact Or.inr rfl
  · split_ifs with h
    · exact ⟨fun _ => h, fun _ => rfl⟩
    · exact ⟨fun h1 => by norm_num at h1, fun h1 => absurd h1 h⟩
  · split_ifs with h
    · exact ⟨fun h1 => by norm_num at h1, fun h1 => absurd h h1⟩
    · exact ⟨fun _ => h, fun _ => rfl⟩
  · simp

/-! ## Voice lookup -/

/-- C20 on the code: getSynth on a frequency without entry dereferences the nil note and
panics (result `none`), in particular on a fresh PolySynth; on a frequency with an entry
it returns that entry's synth and true. -/
theorem C20_getSynth_missing_panics (ps : PolySynth) (base : Synth) (f : ℚ) :
    (ps.notes.lookup f = none → ps.getSynth f = none) ∧
    (∀ n : note, ps.notes.lookup f = some n → ps.getSynth f = some (n.synth, true)) ∧
    (NewPolySynth base).getSynth f = none := by
  refine ⟨?_, ?_, rfl⟩
  · intro h
    simp [PolySynth.getSynth, h]
  · intro n h
    simp [PolySynth.getSynth, h]

/-! ## Key/frequency invariant of the allocator -/

/-- An entry of the map is what is read under its key. -/
theorem NoteMap.lookup_of_mem (m : NoteMap) (e : ℚ × note) (he : e ∈ m.entries) :
    m.lookup e.1 = some e.2 := by
  unfold NoteMap.lookup
  have hnd := m.nodup
  revert hnd he
  induction m.entries with
  | nil => intro he; cases he
  | cons x l ih =>
    intro he hnd
    rw [List.map_cons, List.nodup_cons] at hnd
    rcases List.mem_cons.1 he with h | h
    · subst h
      simp [List.find?_cons]
    · have hne : ¬ x.1 = e.1 := by
        intro hx
        exact hnd.1 (hx ▸ List.mem_map_of_mem Prod.fst h)
      simp only [List.find?_cons, hne, decide_False]
      exact ih h hnd.2

/-- Synth.Stream never changes the frequency field. -/
theorem Synth.Stream_freq (s : Synth) (t : ℚ) : (s.Stream t).1.freq = s.freq := by
  unfold Synth.Stream
  simp only
  split_ifs <;> rfl

/-- One iteration of the TriggerAttack loop keeps the key/frequency invariant. -/
theorem PolySynth.KeyedByFreq_attackOne (copy : Synth → Synth) (now : ℚ) (ps : PolySynth)
    (f : ℚ) (h : ps.KeyedByFreq) : (PolySynth.attackOne copy now ps f).KeyedByFreq := by
  intro k n hk
  rw [PolySynth.lookup_attackOne] at hk
  split_ifs at hk with hkf
  · rw [← Option.some.inj hk, hkf]
    rfl
  · exact h k n hk

/-- TriggerAttack keeps the key/frequency invariant. -/
theorem PolySynth.KeyedByFreq_TriggerAttack (copy : Synth → Synth) (freqs : List ℚ)
    (now : ℚ) (ps : PolySynth) (h : ps.KeyedByFreq) :
    (ps.TriggerAttack copy freqs now).KeyedByFreq := by
  unfold PolySynth.TriggerAttack
  induction freqs generalizing ps with
  | nil => exact h
  | cons f fs ih =>
    rw [List.foldl_cons]
    exact ih _ (PolySynth.KeyedByFreq_attackOne copy now ps f h)

/-- The release loops never change the frequency field of a note. -/
theorem note.releaseAll_freq (now : ℚ) (freqs : List ℚ) (n : note) :
    (freqs.foldl (fun n f => note.releaseIf now f n) n).synth.freq = n.synth.freq := by
  induction freqs generalizing n with
  | nil => rfl
  | cons f fs ih => rw [List.foldl_cons, ih, note.releaseIf_freq]

/-- TriggerRelease keeps the key/frequency invariant. -/
theorem PolySynth.KeyedByFreq_TriggerRelease (freqs : List ℚ) (now : ℚ) (ps : PolySynth)
    (h : ps.KeyedByFreq) : (ps.TriggerRelease freqs now).KeyedByFreq := by
  intro k n hk
  rw [PolySynth.lookup_TriggerRelease] at hk
  cases hl : ps.notes.lookup k with
  | none => rw [hl] at hk; cases hk
  | some n0 =>
    rw [hl] at hk
    rw [← Option.some.inj hk, note.releaseAll_freq]
    exact h k n0 hl

/-- Stream keeps the key/frequency invariant. -/
theorem PolySynth.KeyedByFreq_Stream (t : ℚ) (ps : PolySynth) (h : ps.KeyedByFreq) :
    (ps.Stream t).1.KeyedByFreq := by
  intro k n hk
  rw [PolySynth.lookup_Stream] at hk
  cases hl : ps.notes.lookup k with
  | none => rw [hl] at hk; cases hk
  | some n0 =>
    rw [hl] at hk
    simp only [Option.some_bind] at hk
    split_ifs at hk
    rw [← Option.some.inj hk]
    show (n0.synth.Stream t).1.freq = k
    rw [Synth.Stream_freq]
    exact h k n0 hl

/-- Every sequence of calls keeps the key/frequency invariant. -/
theorem PolySynth.KeyedByFreq_calls (copy : Synth → Synth) (cs : List PolyCall)
    (ps : PolySynth) (h : ps.KeyedByFreq) : (ps.calls copy cs).KeyedByFreq := by
  induction cs generalizing ps with
  | nil => exact h
  | cons c cs ih =>
    have hstep : ps.calls copy (c :: cs) = (ps.call copy c).calls copy cs := rfl
    rw [hstep]
    apply ih
    cases c with
    | triggerAttack freqs now => exact PolySynth.KeyedByFreq_TriggerAttack copy freqs now ps h
    | triggerRelease freqs now => exact PolySynth.KeyedByFreq_TriggerRelease freqs now ps h
    | stream t => exact PolySynth.KeyedByFreq_Stream t ps h

/-- The release loop body at the note's own frequency releases it; at another frequency it
leaves it alone. -/
theorem note.releaseIf_eq (now f : ℚ) (n : note) :
    note.releaseIf now f n = if n.synth.freq = f then note.released now n else n := rfl

/-- Releasing an envelope twice at the same time is releasing it once. -/
theorem Envelope.Release_Release (env : Envelope) (now : ℚ) :
    (env.Release now).Release now = env.Release now := by
  cases env <;> rfl

/-- A released note goes through further release loops (same `now`) unchanged. -/
theorem note.releaseAll_released (now : ℚ) (freqs : List ℚ) (n : note) :
    freqs.foldl (fun n f => note.releaseIf now f n) (note.released now n)
      = note.released now n := by
  induction freqs with
  | nil => rfl
  | cons f fs ih =>
    have hstep : note.releaseIf now f (note.released now n) = note.released now n := by
      rw [note.releaseIf_eq]
      split_ifs
      · simp [note.released, Envelope.Release_Release]
      · rfl
    rw [List.foldl_cons, hstep, ih]

/-- The release loops on a note: released when its frequency is requested, else
unchanged. -/
theorem note.releaseAll_eq (now : ℚ) (freqs : List ℚ) (n : note) :
    freqs.foldl (fun n f => note.releaseIf now f n) n
      = if n.synth.freq ∈ freqs then note.released now n else n := by
  induction freqs with
  | nil => simp
  | cons f fs ih =>
    rw [List.foldl_cons, note.releaseIf_eq]
    by_cases hf : n.synth.freq = f
    · simp only [hf, if_true, List.mem_cons, true_or]
      exact note.releaseAll_released now fs n
    · simp only [hf, if_false, List.mem_cons, false_or]
      exact ih

/-- In a list of entries with distinct keys at most one entry has the key `f`. -/
theorem NoteMap.filter_key_length (l : List (ℚ × note)) (hl : (l.map Prod.fst).Nodup)
    (f : ℚ) : (l.filter (fun e => decide (e.1 = f))).length ≤ 1 := by
  induction l with
  | nil => simp
  | cons x l ih =>
    rw [List.map_cons, List.nodup_cons] at hl
    by_cases hx : x.1 = f
    · have hnone : l.filter (fun e => decide (e.1 = f)) = [] := by
        rw [List.filter_eq_nil_iff]
        intro e he
        have hne : ¬ e.1 = f := by
          intro hef
          exact hl.1 (hx ▸ hef ▸ List.mem_map_of_mem Prod.fst he)
        simpa using hne
      simp [List.filter_cons, hx, hnone]
    · simp only [List.filter_cons, hx, decide_False, Bool.false_eq_true, if_false]
      exact ih hl.2

/-- C21: in every PolySynth state reached from NewPolySynth by TriggerAttack,
TriggerRelease and Stream calls, each entry stored under key f holds a voice whose
frequency field is f; hence TriggerRelease(freqs), which matches on the frequency field,
releases exactly the entries keyed by the requested frequencies and leaves every other key
as it is, and at most one voice has any given frequency. -/
theorem C21_key_frequency_invariant (copy : Synth → Synth) (base : Synth)
    (cs : List PolyCall) (freqs : List ℚ) (now : ℚ) :
    (∀ e ∈ ((NewPolySynth base).calls copy cs).notes.entries, e.2.synth.freq = e.1) ∧
    (∀ k : ℚ,
      (((NewPolySynth base).calls copy cs).TriggerRelease freqs now).notes.lookup k =
        if k ∈ freqs then
          (((NewPolySynth base).calls copy cs).notes.lookup k).map (note.released now)
        else ((NewPolySynth base).calls copy cs).notes.lookup k) ∧
    (∀ f : ℚ, (((NewPolySynth base).calls copy cs).notes.entries.filter
      (fun e => decide (e.2.synth.freq = f))).length ≤ 1) := by
  have hinv : ((NewPolySynth base).calls copy cs).KeyedByFreq := by
    apply PolySynth.KeyedByFreq_calls
    intro k n hk
    simp [NewPolySynth, NoteMap.empty, NoteMap.lookup] at hk
  have hentries : ∀ e ∈ ((NewPolySynth base).calls copy cs).notes.entries,
      e.2.synth.freq = e.1 :=
    fun e he => hinv e.1 e.2 (NoteMap.lookup_of_mem _ e he)
  refine ⟨hentries, ?_, ?_⟩
  · intro k
    rw [PolySynth.lookup_TriggerRelease]
    cases hl : ((NewPolySynth base).calls copy cs).notes.lookup k with
    | none => simp
    | some n =>
      have hfreq : n.synth.freq = k := hinv k n hl
      simp only [Option.map_some', note.releaseAll_eq, hfreq]
      split_ifs <;> rfl
  · intro f
    have hfilter : ((NewPolySynth base).calls copy cs).notes.entries.filter
        (fun e => decide (e.2.synth.freq = f)) =
        ((NewPolySynth base).calls copy cs).notes.entries.filter
        (fun e => decide (e.1 = f)) := by
      apply List.filter_congr
      intro e he
      rw [hentries e he]
    rw [hfilter]
    exact NoteMap.filter_key_length _ ((NewPolySynth base).calls copy cs).notes.nodup f

/-! ## float64 rounding -/

/-- A rational strictly within 1/2 of the integer `n` rounds to `n`. -/
theorem roundNearestEven_of_near (q : ℚ) (n : ℤ) (h1 : (n : ℚ) - 1 / 2 < q)
    (h2 : q < n + 1 / 2) : roundNearestEven q = n := by
  unfold roundNearestEven
  rcases le_or_lt (n : ℚ) q with h | h
  · have hf : ⌊q⌋ = n := Int.floor_eq_iff.2 ⟨h, by linarith⟩
    rw [hf]
    have h3 : q - n < 1 / 2 := by linarith
    rw [if_pos h3]
  · have hf : ⌊q⌋ = n - 1 :=
      Int.floor_eq_iff.2 ⟨by push_cast; linarith, by push_cast; linarith⟩
    rw [hf]
    have h3 : ¬ (q - ((n - 1 : ℤ) : ℚ) < 1 / 2) := by push_cast; linarith
    have h4 : 1 / 2 < q - ((n - 1 : ℤ) : ℚ) := by push_cast; linarith
    rw [if_neg h3, if_pos h4]
    ring

/-- Zero is a float64. -/
theorem fl64_zero : fl64 0 = 0 := by simp [fl64]

/-- Evaluation of `fl64` from a certificate: `x` has exponent `e` (normal range) and `x`
over the spacing 2^(e-52) is strictly within 1/2 of the integer `n`. -/
theorem fl64_eq (x : ℚ) (e n : ℤ) (he : -1022 ≤ e) (hlo : (2 : ℚ) ^ e ≤ |x|)
    (hhi : |x| < (2 : ℚ) ^ (e + 1)) (h1 : (n : ℚ) - 1 / 2 < x / 2 ^ (e - 52))
    (h2 : x / 2 ^ (e - 52) < n + 1 / 2) : fl64 x = n * 2 ^ (e - 52) := by
  have hpos : (0 : ℚ) < |x| := lt_of_lt_of_le (by positivity) hlo
  have hx : x ≠ 0 := abs_pos.1 hpos
  have hlog : Int.log 2 |x| = e := by
    apply le_antisymm
    · have := (Int.lt_zpow_iff_log_lt (b := 2) (by norm_num) hpos).1 (by exact_mod_cast hhi)
      omega
    · exact (Int.zpow_le_iff_le_log (b := 2) (by norm_num) hpos).1 (by exact_mod_cast hlo)
  unfold fl64
  rw [if_neg hx, hlog, max_eq_left he, roundNearestEven_of_near _ n h1 h2]

/-- One is a float64. -/
theorem fl64_one : fl64 1 = 1 := by
  rw [fl64_eq 1 0 (2 ^ 52) (by norm_num) (by norm_num) (by norm_num) (by norm_num)
    (by norm_num)]
  norm_num

/-- The literal `0.1` is read as `f64_0_1`. -/
theorem fl64_tenth : fl64 (1 / 10) = f64_0_1 := by
  rw [fl64_eq (1 / 10) (-4) 7205759403792794 (by norm_num) (by norm_num [abs_of_pos])
    (by norm_num [abs_of_pos]) (by norm_num) (by norm_num)]
  norm_num [f64_0_1]

/-! ## Envelope readings in float64 arithmetic -/

/-- Attack branch of the rounded AD envelope. -/
theorem ADEnvelope.attack64_ad (env : ADEnvelope) (t : ℚ) (hs : env.started = true)
    (h : fl64 (t - env.attackTime) ≤ env.AttackDuration) :
    env.GetAmplitude64 t =
      fl64 (fl64 (fl64 (t - env.attackTime) / env.AttackDuration) * env.Amplitude) := by
  simp [ADEnvelope.GetAmplitude64, hs, h]

/-- Decay branch of the rounded AD envelope. -/
theorem ADEnvelope.decay64_ad (env : ADEnvelope) (t : ℚ) (hs : env.started = true)
    (h1 : env.AttackDuration < fl64 (t - env.attackTime))
    (h2 : fl64 (t - env.attackTime) ≤ fl64 (env.AttackDuration + env.DecayDuration)) :
    env.GetAmplitude64 t =
      fl64 (env.Amplitude - fl64 (env.Amplitude *
        fl64 (fl64 (fl64 (t - env.attackTime) - env.AttackDuration) / env.DecayDuration))) := by
  simp [ADEnvelope.GetAmplitude64, hs, not_le.2 h1, h1, h2]

/-- The rounded AD envelope after the decay branch. -/
theorem ADEnvelope.after64_ad (env : ADEnvelope) (t : ℚ) (hs : env.started = true)
    (h1 : env.AttackDuration < fl64 (t - env.attackTime))
    (h2 : fl64 (env.AttackDuration + env.DecayDuration) < fl64 (t - env.attackTime)) :
    env.GetAmplitude64 t = 0 := by
  simp [ADEnvelope.GetAmplitude64, hs, not_le.2 h1, not_le.2 h2]

/-- Attack branch of the rounded ASR envelope. -/
theorem ASREnvelope.attack64_asr (env : ASREnvelope) (t : ℚ)
    (hs : env.started = true) (h : fl64 (t - env.attackTime) ≤ env.AttackDuration) :
    env.GetAmplitude64 t =
      fl64 (fl64 (fl64 (t - env.attackTime) / env.AttackDuration) * env.Amplitude) := by
  simp [ASREnvelope.GetAmplitude64, hs, h]

/-- Attack branch of the rounded ADSR envelope. -/
theorem ADSREnvelope.attack64_adsr (env : ADSREnvelope) (t : ℚ)
    (hs : env.started = true) (h : fl64 (t - env.attackTime) ≤ env.AttackDuration) :
    env.GetAmplitude64 t =
      fl64 (fl64 (fl64 (t - env.attackTime) / env.AttackDuration) * env.AttackAmplitude) := by
  simp [ADSREnvelope.GetAmplitude64, hs, h]

/-- Decay branch of the rounded ADSR envelope. -/
theorem ADSREnvelope.decay64_adsr (env : ADSREnvelope) (t : ℚ)
    (hs : env.started = true) (h1 : env.AttackDuration < fl64 (t - env.attackTime))
    (h2 : fl64 (t - env.attackTime) ≤ fl64 (env.AttackDuration + env.DecayDuration)) :
    env.GetAmplitude64 t =
      fl64 (env.AttackAmplitude -
        fl64 (fl64 (env.AttackAmplitude - env.SustainAmplitude) *
          fl64 (fl64 (fl64 (t - env.attackTime) - env.AttackDuration) /
            env.DecayDuration))) := by
  simp [ADSREnvelope.GetAmplitude64, hs, not_le.2 h1, h1, h2]

/-- Sustain branch of the rounded ADSR envelope. -/
theorem ADSREnvelope.sustain64_adsr (env : ADSREnvelope) (t : ℚ)
    (hs : env.started = true) (hon : env.isOn = true)
    (h1 : env.AttackDuration < fl64 (t - env.attackTime))
    (h2 : fl64 (env.AttackDuration + env.DecayDuration) < fl64 (t - env.attackTime)) :
    env.GetAmplitude64 t = env.SustainAmplitude := by
  simp [ADSREnvelope.GetAmplitude64, hs, hon, not_le.2 h1, not_le.2 h2, h2]


/-- The Bell envelope (1, 0.1, 1) attacked at 2, read at the float64 sum 2 + 0.1: the
elapsed time rounds to a value above 0.1, the decay branch runs and the reading is
1 - 2^-53. -/
theorem ADEnvelope.reading_bell_peak :
    ((NewADEnvelope 1 f64_0_1 1).Attack 2).GetAmplitude64 (4728779608739021 / 2251799813685248) =
      9007199254740991 / 9007199254740992 := by
  have hc : fl64 (4728779608739021 / 2251799813685248 - 2) = 225179981368525 / 2251799813685248 := by
    rw [fl64_eq (4728779608739021 / 2251799813685248 - 2) (-4) (7205759403792800) (by norm_num) (by norm_num [abs_of_pos])
      (by norm_num [abs_of_pos]) (by norm_num) (by norm_num)]
    norm_num
  have hsum : fl64 (3602879701896397 / 36028797018963968 + 1) = 2476979795053773 / 2251799813685248 := by
    rw [fl64_eq (3602879701896397 / 36028797018963968 + 1) (0) (4953959590107546) (by norm_num) (by norm_num [abs_of_pos])
      (by norm_num [abs_of_pos]) (by norm_num) (by norm_num)]
    norm_num
  have hd : fl64 (225179981368525 / 2251799813685248 - 3602879701896397 / 36028797018963968) = 3 / 36028797018963968 := by
    rw [fl64_eq (225179981368525 / 2251799813685248 - 3602879701896397 / 36028797018963968) (-54) (6755399441055744) (by norm_num) (by norm_num [abs_of_pos])
      (by norm_num [abs_of_pos]) (by norm_num) (by norm_num)]
    norm_num
  have hr : fl64 (3 / 36028797018963968 / 1) = 3 / 36028797018963968 := by
    rw [fl64_eq (3 / 36028797018963968 / 1) (-54) (6755399441055744) (by norm_num) (by norm_num [abs_of_pos])
      (by norm_num [abs_of_pos]) (by norm_num) (by norm_num)]
    norm_num
  have hp : fl64 (1 * (3 / 36028797018963968)) = 3 / 36028797018963968 := by
    rw [fl64_eq (1 * (3 / 36028797018963968)) (-54) (6755399441055744) (by norm_num) (by norm_num [abs_of_pos])
      (by norm_num [abs_of_pos]) (by norm_num) (by norm_num)]
    norm_num
  have hv : fl64 (1 - 3 / 36028797018963968) = 9007199254740991 / 9007199254740992 := by
    rw [fl64_eq (1 - 3 / 36028797018963968) (-1) (9007199254740991) (by norm_num) (by norm_num [abs_of_pos])
      (by norm_num [abs_of_pos]) (by norm_num) (by norm_num)]
    norm_num
  have h1 : (3602879701896397 / 36028797018963968 : ℚ) < 225179981368525 / 2251799813685248 := by norm_num
  have h2 : (225179981368525 / 2251799813685248 : ℚ) ≤ 2476979795053773 / 2251799813685248 := by norm_num
  rw [ADEnvelope.decay64_ad _ _ rfl
    (by show (3602879701896397 / 36028797018963968 : ℚ) < fl64 (4728779608739021 / 2251799813685248 - 2); rw [hc]; exact h1)
    (by show fl64 (4728779608739021 / 2251799813685248 - 2) ≤ fl64 (3602879701896397 / 36028797018963968 + 1); rw [hc, hsum]; exact h2)]
  show fl64 (1 - fl64 (1 * fl64 (fl64 (fl64 (4728779608739021 / 2251799813685248 - 2) - 3602879701896397 / 36028797018963968) / 1))) = 9007199254740991 / 9007199254740992
  rw [hc, hd, hr, hp, hv]


/-- The AD envelope (1, 1, 0.1) attacked at 0, read at the float64 sum 1 + 0.1 (the end
of its decay): the decay fraction rounds to a value above 1 and the reading is -2^-50. -/
theorem ADEnvelope.reading_ad_decay_end :
    ((NewADEnvelope 1 1 f64_0_1).Attack 0).GetAmplitude64 (2476979795053773 / 2251799813685248) =
      (-1 / 1125899906842624) := by
  have hc : fl64 (2476979795053773 / 2251799813685248 - 0) = 2476979795053773 / 2251799813685248 := by
    rw [fl64_eq (2476979795053773 / 2251799813685248 - 0) (0) (4953959590107546) (by norm_num) (by norm_num [abs_of_pos])
      (by norm_num [abs_of_pos]) (by norm_num) (by norm_num)]
    norm_num
  have hsum : fl64 (1 + 3602879701896397 / 36028797018963968) = 2476979795053773 / 2251799813685248 := by
    rw [fl64_eq (1 + 3602879701896397 / 36028797018963968) (0) (4953959590107546) (by norm_num) (by norm_num [abs_of_pos])
      (by norm_num [abs_of_pos]) (by norm_num) (by norm_num)]
    norm_num
  have hd : fl64 (2476979795053773 / 2251799813685248 - 1) = 225179981368525 / 2251799813685248 := by
    rw [fl64_eq (2476979795053773 / 2251799813685248 - 1) (-4) (7205759403792800) (by norm_num) (by norm_num [abs_of_pos])
      (by norm_num [abs_of_pos]) (by norm_num) (by norm_num)]
    norm_num
  have hr : fl64 (225179981368525 / 2251799813685248 / (3602879701896397 / 36028797018963968)) = 1125899906842625 / 1125899906842624 := by
    rw [fl64_eq (225179981368525 / 2251799813685248 / (3602879701896397 / 36028797018963968)) (0) (4503599627370500) (by norm_num) (by norm_num [abs_of_pos])
      (by norm_num [abs_of_pos]) (by norm_num) (by norm_num)]
    norm_num
  have hp : fl64 (1 * (1125899906842625 / 1125899906842624)) = 1125899906842625 / 1125899906842624 := by
    rw [fl64_eq (1 * (1125899906842625 / 1125899906842624)) (0) (4503599627370500) (by norm_num) (by norm_num [abs_of_pos])
      (by norm_num [abs_of_pos]) (by norm_num) (by norm_num)]
    norm_num
  have hv : fl64 (1 - 1125899906842625 / 1125899906842624) = (-1 / 1125899906842624) := by
    rw [fl64_eq (1 - 1125899906842625 / 1125899906842624) (-50) (-4503599627370496) (by norm_num) (by norm_num [abs_of_neg])
      (by norm_num [abs_of_neg]) (by norm_num) (by norm_num)]
    norm_num
  have h1 : (1 : ℚ) < 2476979795053773 / 2251799813685248 := by norm_num
  rw [ADEnvelope.decay64_ad _ _ rfl
    (by show (1 : ℚ) < fl64 (2476979795053773 / 2251799813685248 - 0); rw [hc]; exact h1)
    (by show fl64 (2476979795053773 / 2251799813685248 - 0) ≤ fl64 (1 + 3602879701896397 / 36028797018963968); rw [hc, hsum])]
  show fl64 (1 - fl64 (1 * fl64 (fl64 (fl64 (2476979795053773 / 2251799813685248 - 0) - 1) / (3602879701896397 / 36028797018963968)))) = (-1 / 1125899906842624)
  rw [hc, hd, hr, hp, hv]


/-- The Harmonica envelope (1, 0.95, 0.05, 0.1, 0.2) attacked at 3, read at the float64
sum 3 + 0.05: the elapsed time rounds to a value below 0.05 and the reading is
1 - 2^-48. -/
theorem ADSREnvelope.reading_harmonica_peak :
    ((NewADSREnvelope 1 f64_0_95 f64_0_05 f64_0_1 f64_0_2).Attack 3).GetAmplitude64
      (3433994715870003 / 1125899906842624) = 281474976710655 / 281474976710656 := by
  have hc : fl64 (3433994715870003 / 1125899906842624 - 3) = 56294995342131 / 1125899906842624 := by
    rw [fl64_eq (3433994715870003 / 1125899906842624 - 3) (-5) (7205759403792768) (by norm_num) (by norm_num [abs_of_pos])
      (by norm_num [abs_of_pos]) (by norm_num) (by norm_num)]
    norm_num
  have hr : fl64 (56294995342131 / 1125899906842624 / (3602879701896397 / 72057594037927936)) = 281474976710655 / 281474976710656 := by
    rw [fl64_eq (56294995342131 / 1125899906842624 / (3602879701896397 / 72057594037927936)) (-1) (9007199254740960) (by norm_num) (by norm_num [abs_of_pos])
      (by norm_num [abs_of_pos]) (by norm_num) (by norm_num)]
    norm_num
  have hv : fl64 (281474976710655 / 281474976710656 * 1) = 281474976710655 / 281474976710656 := by
    rw [fl64_eq (281474976710655 / 281474976710656 * 1) (-1) (9007199254740960) (by norm_num) (by norm_num [abs_of_pos])
      (by norm_num [abs_of_pos]) (by norm_num) (by norm_num)]
    norm_num
  have h1 : (56294995342131 / 1125899906842624 : ℚ) ≤ 3602879701896397 / 72057594037927936 := by norm_num
  rw [ADSREnvelope.attack64_adsr _ _ rfl
    (by show fl64 (3433994715870003 / 1125899906842624 - 3) ≤ (3602879701896397 / 72057594037927936 : ℚ); rw [hc]; exact h1)]
  show fl64 (fl64 (fl64 (3433994715870003 / 1125899906842624 - 3) / (3602879701896397 / 72057594037927936)) * 1) = 281474976710655 / 281474976710656
  rw [hc, hr, hv]


/-- The ADSR envelope (0.5, 1, 1, 0.1, 1) attacked at 0, read at the float64 sum 1 + 0.1
(the end of its decay): the decay fraction rounds to a value above 1 and the reading is
1 + 2^-51. -/
theorem ADSREnvelope.reading_adsr_decay_end :
    ((NewADSREnvelope (1 / 2) 1 1 f64_0_1 1).Attack 0).GetAmplitude64 (2476979795053773 / 2251799813685248) =
      2251799813685249 / 2251799813685248 := by
  have hc : fl64 (2476979795053773 / 2251799813685248 - 0) = 2476979795053773 / 2251799813685248 := by
    rw [fl64_eq (2476979795053773 / 2251799813685248 - 0) (0) (4953959590107546) (by norm_num) (by norm_num [abs_of_pos])
      (by norm_num [abs_of_pos]) (by norm_num) (by norm_num)]
    norm_num
  have hsum : fl64 (1 + 3602879701896397 / 36028797018963968) = 2476979795053773 / 2251799813685248 := by
    rw [fl64_eq (1 + 3602879701896397 / 36028797018963968) (0) (4953959590107546) (by norm_num) (by norm_num [abs_of_pos])
      (by norm_num [abs_of_pos]) (by norm_num) (by norm_num)]
    norm_num
  have hd : fl64 (2476979795053773 / 2251799813685248 - 1) = 225179981368525 / 2251799813685248 := by
    rw [fl64_eq (2476979795053773 / 2251799813685248 - 1) (-4) (7205759403792800) (by norm_num) (by norm_num [abs_of_pos])
      (by norm_num [abs_of_pos]) (by norm_num) (by norm_num)]
    norm_num
  have hr : fl64 (225179981368525 / 2251799813685248 / (3602879701896397 / 36028797018963968)) = 1125899906842625 / 1125899906842624 := by
    rw [fl64_eq (225179981368525 / 2251799813685248 / (3602879701896397 / 36028797018963968)) (0) (4503599627370500) (by norm_num) (by norm_num [abs_of_pos])
      (by norm_num [abs_of_pos]) (by norm_num) (by norm_num)]
    norm_num
  have hdf : fl64 (1 / 2 - 1) = (-1 / 2) := by
    rw [fl64_eq (1 / 2 - 1) (-1) (-4503599627370496) (by norm_num) (by norm_num [abs_of_neg])
      (by norm_num [abs_of_neg]) (by norm_num) (by norm_num)]
    norm_num
  have hp : fl64 ((-1 / 2) * (1125899906842625 / 1125899906842624)) = (-1125899906842625 / 2251799813685248) := by
    rw [fl64_eq ((-1 / 2) * (1125899906842625 / 1125899906842624)) (-1) (-4503599627370500) (by norm_num) (by norm_num [abs_of_neg])
      (by norm_num [abs_of_neg]) (by norm_num) (by norm_num)]
    norm_num
  have hv : fl64 (1 / 2 - (-1125899906842625 / 2251799813685248)) = 2251799813685249 / 2251799813685248 := by
    rw [fl64_eq (1 / 2 - (-1125899906842625 / 2251799813685248)) (0) (4503599627370498) (by norm_num) (by norm_num [abs_of_pos])
      (by norm_num [abs_of_pos]) (by norm_num) (by norm_num)]
    norm_num
  have h1 : (1 : ℚ) < 2476979795053773 / 2251799813685248 := by norm_num
  rw [ADSREnvelope.decay64_adsr _ _ rfl
    (by show (1 : ℚ) < fl64 (2476979795053773 / 2251799813685248 - 0); rw [hc]; exact h1)
    (by show fl64 (2476979795053773 / 2251799813685248 - 0) ≤ fl64 (1 + 3602879701896397 / 36028797018963968); rw [hc, hsum])]
  show fl64 (1 / 2 - fl64 (fl64 (1 / 2 - 1) * fl64 (fl64 (fl64 (2476979795053773 / 2251799813685248 - 0) - 1) / (3602879701896397 / 36028797018963968)))) = 2251799813685249 / 2251799813685248
  rw [hc, hd, hr, hdf, hp, hv]


/-- The float64 sum 2 + 0.1. -/
theorem fl64_two_add_tenth :
    fl64 (2 + f64_0_1) = 4728779608739021 / 2251799813685248 := by
  unfold f64_0_1
  have h : fl64 (2 + 3602879701896397 / 36028797018963968) = 4728779608739021 / 2251799813685248 := by
    rw [fl64_eq (2 + 3602879701896397 / 36028797018963968) (1) (4728779608739021) (by norm_num) (by norm_num [abs_of_pos])
      (by norm_num [abs_of_pos]) (by norm_num) (by norm_num)]
    norm_num
  exact h


/-- The float64 sum 1 + 0.1. -/
theorem fl64_one_add_tenth :
    fl64 (1 + f64_0_1) = 2476979795053773 / 2251799813685248 := by
  unfold f64_0_1
  have h : fl64 (1 + 3602879701896397 / 36028797018963968) = 2476979795053773 / 2251799813685248 := by
    rw [fl64_eq (1 + 3602879701896397 / 36028797018963968) (0) (4953959590107546) (by norm_num) (by norm_num [abs_of_pos])
      (by norm_num [abs_of_pos]) (by norm_num) (by norm_num)]
    norm_num
  exact h


/-- The float64 sum 3 + 0.05. -/
theorem fl64_three_add_twentieth :
    fl64 (3 + f64_0_05) = 3433994715870003 / 1125899906842624 := by
  unfold f64_0_05
  have h : fl64 (3 + 3602879701896397 / 72057594037927936) = 3433994715870003 / 1125899906842624 := by
    rw [fl64_eq (3 + 3602879701896397 / 72057594037927936) (1) (6867989431740006) (by norm_num) (by norm_num [abs_of_pos])
      (by norm_num [abs_of_pos]) (by norm_num) (by norm_num)]
    norm_num
  exact h

/-- C2 fails as stated in float64 arithmetic. The Bell envelope (1, 0.1, 1) attacked at 2
reads 1 - 2^-53 at the float64 sum 2 + 0.1, not its Amplitude 1; the AD envelope
(1, 1, 0.1) attacked at 0 reads -2^-50 at the float64 sum 0 + 1 + 0.1, not 0. -/
theorem C2_counterexample :
    fl64 (1 / 10) = f64_0_1 ∧
    0 < (NewADEnvelope 1 f64_0_1 1).AttackDuration ∧
    0 < (NewADEnvelope 1 f64_0_1 1).DecayDuration ∧
    fl64 (2 + f64_0_1) = 4728779608739021 / 2251799813685248 ∧
    ((NewADEnvelope 1 f64_0_1 1).Attack 2).GetAmplitude64 (4728779608739021 / 2251799813685248) =
      9007199254740991 / 9007199254740992 ∧
    ((NewADEnvelope 1 f64_0_1 1).Attack 2).GetAmplitude64 (4728779608739021 / 2251799813685248) ≠
      (NewADEnvelope 1 f64_0_1 1).Amplitude ∧
    fl64 (1 + f64_0_1) = 2476979795053773 / 2251799813685248 ∧
    ((NewADEnvelope 1 1 f64_0_1).Attack 0).GetAmplitude64 (2476979795053773 / 2251799813685248) =
      -1 / 1125899906842624 := by
  refine ⟨fl64_tenth, by norm_num [NewADEnvelope, f64_0_1], by norm_num [NewADEnvelope],
    fl64_two_add_tenth, ADEnvelope.reading_bell_peak, ?_, fl64_one_add_tenth,
    ADEnvelope.reading_ad_decay_end⟩
  rw [ADEnvelope.reading_bell_peak]
  norm_num [NewADEnvelope]

/-- C2 (amended): for an AD envelope with positive durations and a float64 Amplitude,
attacked at ta, in float64 arithmetic: the reading at ta is 0; the reading is Amplitude at
every t whose computed elapsed time t - ta equals AttackDuration; it is 0 at every t of the
decay branch whose computed decay time (t - ta) - AttackDuration equals DecayDuration, and
at every t whose computed elapsed time exceeds AttackDuration and the computed
AttackDuration + DecayDuration. -/
theorem C2_ad_key_points_float64 (env : ADEnvelope) (ta : ℚ)
    (hA : 0 < env.AttackDuration) (hD : 0 < env.DecayDuration)
    (hamp : fl64 env.Amplitude = env.Amplitude) :
    (env.Attack ta).GetAmplitude64 ta = 0 ∧
    (∀ t : ℚ, fl64 (t - ta) = env.AttackDuration →
      (env.Attack ta).GetAmplitude64 t = env.Amplitude) ∧
    (∀ t : ℚ, env.AttackDuration < fl64 (t - ta) →
      fl64 (t - ta) ≤ fl64 (env.AttackDuration + env.DecayDuration) →
      fl64 (fl64 (t - ta) - env.AttackDuration) = env.DecayDuration →
      (env.Attack ta).GetAmplitude64 t = 0) ∧
    (∀ t : ℚ, env.AttackDuration < fl64 (t - ta) →
      fl64 (env.AttackDuration + env.DecayDuration) < fl64 (t - ta) →
      (env.Attack ta).GetAmplitude64 t = 0) := by
  refine ⟨?_, ?_, ?_, ?_⟩
  · have hcur : fl64 (ta - ta) = 0 := by rw [sub_self, fl64_zero]
    rw [ADEnvelope.attack64_ad (env.Attack ta) ta rfl
      (by show fl64 (ta - ta) ≤ env.AttackDuration; rw [hcur]; exact hA.le)]
    show fl64 (fl64 (fl64 (ta - ta) / env.AttackDuration) * env.Amplitude) = 0
    rw [hcur, zero_div, fl64_zero, zero_mul, fl64_zero]
  · intro t ht
    rw [ADEnvelope.attack64_ad (env.Attack ta) t rfl (le_of_eq ht)]
    show fl64 (fl64 (fl64 (t - ta) / env.AttackDuration) * env.Amplitude) = env.Amplitude
    rw [ht, div_self hA.ne.symm, fl64_one, one_mul, hamp]
  · intro t h1 h2 h3
    rw [ADEnvelope.decay64_ad (env.Attack ta) t rfl h1 h2]
    show fl64 (env.Amplitude - fl64 (env.Amplitude *
      fl64 (fl64 (fl64 (t - ta) - env.AttackDuration) / env.DecayDuration))) = 0
    rw [h3, div_self hD.ne.symm, fl64_one, mul_one, hamp, sub_self, fl64_zero]
  · intro t h1 h2
    exact ADEnvelope.after64_ad (env.Attack ta) t rfl h1 h2

/-- Witness for the amended C2: the AD envelope (1, 0.5, 2) attacked at 1 reads 0 at 1,
1 at 1.5, 0 at 3.5 and 0 at 4 (all these times and differences are exact in float64). -/
theorem C2_ad_key_points_float64_witness :
    ((NewADEnvelope 1 (1 / 2) 2).Attack 1).GetAmplitude64 1 = 0 ∧
    ((NewADEnvelope 1 (1 / 2) 2).Attack 1).GetAmplitude64 (3 / 2) = 1 ∧
    ((NewADEnvelope 1 (1 / 2) 2).Attack 1).GetAmplitude64 (7 / 2) = 0 ∧
    ((NewADEnvelope 1 (1 / 2) 2).Attack 1).GetAmplitude64 4 = 0 := by
  have hw1 : fl64 (3 / 2 - 1) = 1 / 2 := by
    rw [fl64_eq (3 / 2 - 1) (-1) (4503599627370496) (by norm_num) (by norm_num [abs_of_pos])
      (by norm_num [abs_of_pos]) (by norm_num) (by norm_num)]
    norm_num
  have hw2 : fl64 (7 / 2 - 1) = 5 / 2 := by
    rw [fl64_eq (7 / 2 - 1) (1) (5629499534213120) (by norm_num) (by norm_num [abs_of_pos])
      (by norm_num [abs_of_pos]) (by norm_num) (by norm_num)]
    norm_num
  have hw3 : fl64 (1 / 2 + 2) = 5 / 2 := by
    rw [fl64_eq (1 / 2 + 2) (1) (5629499534213120) (by norm_num) (by norm_num [abs_of_pos])
      (by norm_num [abs_of_pos]) (by norm_num) (by norm_num)]
    norm_num
  have hw4 : fl64 (5 / 2 - 1 / 2) = 2 := by
    rw [fl64_eq (5 / 2 - 1 / 2) (1) (4503599627370496) (by norm_num) (by norm_num [abs_of_pos])
      (by norm_num [abs_of_pos]) (by norm_num) (by norm_num)]
    norm_num
  have hw5 : fl64 (4 - 1) = 3 := by
    rw [fl64_eq (4 - 1) (1) (6755399441055744) (by norm_num) (by norm_num [abs_of_pos])
      (by norm_num [abs_of_pos]) (by norm_num) (by norm_num)]
    norm_num
  have h := C2_ad_key_points_float64 (NewADEnvelope 1 (1 / 2) 2) 1
    (by norm_num [NewADEnvelope]) (by norm_num [NewADEnvelope]) fl64_one
  refine ⟨h.1, h.2.1 (3 / 2) hw1, h.2.2.1 (7 / 2) ?_ ?_ ?_, h.2.2.2 4 ?_ ?_⟩
  · show (1 / 2 : ℚ) < fl64 (7 / 2 - 1)
    rw [hw2]; norm_num
  · show fl64 (7 / 2 - 1) ≤ fl64 (1 / 2 + 2)
    rw [hw2, hw3]
  · show fl64 (fl64 (7 / 2 - 1) - 1 / 2) = 2
    rw [hw2, hw4]
  · show (1 / 2 : ℚ) < fl64 (4 - 1)
    rw [hw5]; norm_num
  · show fl64 (1 / 2 + 2) < fl64 (4 - 1)
    rw [hw3, hw5]; norm_num

/-- C4 at its failing input: the ASR envelope (1, 10, 1) attacked at 0 and released at 0
is off, yet its reading stays on the attack ramp: 0.1 (not 0) at time 0 + ReleaseDuration,
and the full Amplitude 1 at time 10, in float64 arithmetic. -/
theorem C4_release_during_attack :
    (((NewASREnvelope 1 10 1).Attack 0).Release 0).isOn = false ∧
    fl64 (0 + (NewASREnvelope 1 10 1).ReleaseDuration) = 1 ∧
    (((NewASREnvelope 1 10 1).Attack 0).Release 0).GetAmplitude64 1 = f64_0_1 ∧
    (((NewASREnvelope 1 10 1).Attack 0).Release 0).GetAmplitude64 10 = 1 := by
  have hone : fl64 (0 + 1) = 1 := by
    rw [fl64_eq (0 + 1) (0) (4503599627370496) (by norm_num) (by norm_num [abs_of_pos])
      (by norm_num [abs_of_pos]) (by norm_num) (by norm_num)]
    norm_num
  have hc1 : fl64 (1 - 0) = 1 := by
    rw [fl64_eq (1 - 0) (0) (4503599627370496) (by norm_num) (by norm_num [abs_of_pos])
      (by norm_num [abs_of_pos]) (by norm_num) (by norm_num)]
    norm_num
  have hq1 : fl64 (1 / 10) = 3602879701896397 / 36028797018963968 := fl64_tenth
  have hv1 : fl64 (3602879701896397 / 36028797018963968 * 1) = 3602879701896397 / 36028797018963968 := by
    rw [fl64_eq (3602879701896397 / 36028797018963968 * 1) (-4) (7205759403792794) (by norm_num) (by norm_num [abs_of_pos])
      (by norm_num [abs_of_pos]) (by norm_num) (by norm_num)]
    norm_num
  have hc2 : fl64 (10 - 0) = 10 := by
    rw [fl64_eq (10 - 0) (3) (5629499534213120) (by norm_num) (by norm_num [abs_of_pos])
      (by norm_num [abs_of_pos]) (by norm_num) (by norm_num)]
    norm_num
  have hq2 : fl64 (10 / 10) = 1 := by
    rw [fl64_eq (10 / 10) (0) (4503599627370496) (by norm_num) (by norm_num [abs_of_pos])
      (by norm_num [abs_of_pos]) (by norm_num) (by norm_num)]
    norm_num
  have hv2 : fl64 (1 * 1) = 1 := by
    rw [fl64_eq (1 * 1) (0) (4503599627370496) (by norm_num) (by norm_num [abs_of_pos])
      (by norm_num [abs_of_pos]) (by norm_num) (by norm_num)]
    norm_num
  refine ⟨rfl, hone, ?_, ?_⟩
  · rw [ASREnvelope.attack64_asr _ _ rfl
      (by show fl64 (1 - 0) ≤ (10 : ℚ); rw [hc1]; norm_num)]
    show fl64 (fl64 (fl64 (1 - 0) / 10) * 1) = f64_0_1
    rw [hc1, hq1, hv1]
    rfl
  · rw [ASREnvelope.attack64_asr _ _ rfl
      (by show fl64 (10 - 0) ≤ (10 : ℚ); rw [hc2])]
    show fl64 (fl64 (fl64 (10 - 0) / 10) * 1) = 1
    rw [hc2, hq2, hv2]

/-- C5 fails as stated in float64 arithmetic. The Harmonica envelope
(1, 0.95, 0.05, 0.1, 0.2) attacked at 3 reads 1 - 2^-48 at the float64 sum 3 + 0.05, not
its AttackAmplitude 1; the ADSR envelope (0.5, 1, 1, 0.1, 1) attacked at 0 reads 1 + 2^-51
at the float64 sum 0 + 1 + 0.1, not its SustainAmplitude 1. -/
theorem C5_counterexample :
    0 < (NewADSREnvelope 1 f64_0_95 f64_0_05 f64_0_1 f64_0_2).AttackDuration ∧
    0 < (NewADSREnvelope 1 f64_0_95 f64_0_05 f64_0_1 f64_0_2).DecayDuration ∧
    fl64 (3 + f64_0_05) = 3433994715870003 / 1125899906842624 ∧
    ((NewADSREnvelope 1 f64_0_95 f64_0_05 f64_0_1 f64_0_2).Attack 3).GetAmplitude64
      (3433994715870003 / 1125899906842624) = 281474976710655 / 281474976710656 ∧
    ((NewADSREnvelope 1 f64_0_95 f64_0_05 f64_0_1 f64_0_2).Attack 3).GetAmplitude64
      (3433994715870003 / 1125899906842624) ≠
      (NewADSREnvelope 1 f64_0_95 f64_0_05 f64_0_1 f64_0_2).AttackAmplitude ∧
    fl64 (1 + f64_0_1) = 2476979795053773 / 2251799813685248 ∧
    ((NewADSREnvelope (1 / 2) 1 1 f64_0_1 1).Attack 0).GetAmplitude64 (2476979795053773 / 2251799813685248) =
      2251799813685249 / 2251799813685248 ∧
    ((NewADSREnvelope (1 / 2) 1 1 f64_0_1 1).Attack 0).GetAmplitude64 (2476979795053773 / 2251799813685248) ≠
      (NewADSREnvelope (1 / 2) 1 1 f64_0_1 1).SustainAmplitude := by
  refine ⟨by norm_num [NewADSREnvelope, f64_0_05], by norm_num [NewADSREnvelope, f64_0_1],
    fl64_three_add_twentieth, ADSREnvelope.reading_harmonica_peak, ?_, fl64_one_add_tenth,
    ADSREnvelope.reading_adsr_decay_end, ?_⟩
  · rw [ADSREnvelope.reading_harmonica_peak]
    norm_num [NewADSREnvelope]
  · rw [ADSREnvelope.reading_adsr_decay_end]
    norm_num [NewADSREnvelope]

/-- C5 (amended): for an ADSR envelope with positive attack and decay durations and float64
amplitudes, attacked at ta (so it is on), in float64 arithmetic: the reading is
AttackAmplitude at every t whose computed elapsed time t - ta equals AttackDuration; it is
SustainAmplitude at every t of the decay branch whose computed decay time
(t - ta) - AttackDuration equals DecayDuration, when the difference
AttackAmplitude - SustainAmplitude is itself a float64; and it is SustainAmplitude, while
the envelope is on, at every t whose computed elapsed time exceeds AttackDuration and the
computed AttackDuration + DecayDuration. -/
theorem C5_adsr_key_points_float64 (env : ADSREnvelope) (ta : ℚ)
    (hA : 0 < env.AttackDuration) (hD : 0 < env.DecayDuration)
    (hAA : fl64 env.AttackAmplitude = env.AttackAmplitude)
    (hSA : fl64 env.SustainAmplitude = env.SustainAmplitude) :
    (env.Attack ta).isOn = true ∧
    (∀ t : ℚ, fl64 (t - ta) = env.AttackDuration →
      (env.Attack ta).GetAmplitude64 t = env.AttackAmplitude) ∧
    (∀ t : ℚ, env.AttackDuration < fl64 (t - ta) →
      fl64 (t - ta) ≤ fl64 (env.AttackDuration + env.DecayDuration) →
      fl64 (fl64 (t - ta) - env.AttackDuration) = env.DecayDuration →
      fl64 (env.AttackAmplitude - env.SustainAmplitude) =
        env.AttackAmplitude - env.SustainAmplitude →
      (env.Attack ta).GetAmplitude64 t = env.SustainAmplitude) ∧
    (∀ t : ℚ, env.AttackDuration < fl64 (t - ta) →
      fl64 (env.AttackDuration + env.DecayDuration) < fl64 (t - ta) →
      (env.Attack ta).GetAmplitude64 t = env.SustainAmplitude) := by
  refine ⟨rfl, ?_, ?_, ?_⟩
  · intro t ht
    rw [ADSREnvelope.attack64_adsr (env.Attack ta) t rfl (le_of_eq ht)]
    show fl64 (fl64 (fl64 (t - ta) / env.AttackDuration) * env.AttackAmplitude) =
      env.AttackAmplitude
    rw [ht, div_self hA.ne.symm, fl64_one, one_mul, hAA]
  · intro t h1 h2 h3 h4
    rw [ADSREnvelope.decay64_adsr (env.Attack ta) t rfl h1 h2]
    show fl64 (env.AttackAmplitude -
      fl64 (fl64 (env.AttackAmplitude - env.SustainAmplitude) *
        fl64 (fl64 (fl64 (t - ta) - env.AttackDuration) / env.DecayDuration))) =
      env.SustainAmplitude
    rw [h3, div_self hD.ne.symm, fl64_one, mul_one, h4, h4, sub_sub_cancel, hSA]
  · intro t h1 h2
    exact ADSREnvelope.sustain64_adsr (env.Attack ta) t rfl rfl h1 h2

/-- Witness for the amended C5: the ADSR envelope (1, 0.5, 0.5, 2, 1) attacked at 1 is on
and reads 1 at 1.5, 0.5 at 3.5 and 0.5 at 4 (all these times and differences are exact in
float64). -/
theorem C5_adsr_key_points_float64_witness :
    ((NewADSREnvelope 1 (1 / 2) (1 / 2) 2 1).Attack 1).isOn = true ∧
    ((NewADSREnvelope 1 (1 / 2) (1 / 2) 2 1).Attack 1).GetAmplitude64 (3 / 2) = 1 ∧
    ((NewADSREnvelope 1 (1 / 2) (1 / 2) 2 1).Attack 1).GetAmplitude64 (7 / 2) = 1 / 2 ∧
    ((NewADSREnvelope 1 (1 / 2) (1 / 2) 2 1).Attack 1).GetAmplitude64 4 = 1 / 2 := by
  have hw1 : fl64 (3 / 2 - 1) = 1 / 2 := by
    rw [fl64_eq (3 / 2 - 1) (-1) (4503599627370496) (by norm_num) (by norm_num [abs_of_pos])
      (by norm_num [abs_of_pos]) (by norm_num) (by norm_num)]
    norm_num
  have hw2 : fl64 (7 / 2 - 1) = 5 / 2 := by
    rw [fl64_eq (7 / 2 - 1) (1) (5629499534213120) (by norm_num) (by norm_num [abs_of_pos])
      (by norm_num [abs_of_pos]) (by norm_num) (by norm_num)]
    norm_num
  have hw3 : fl64 (1 / 2 + 2) = 5 / 2 := by
    rw [fl64_eq (1 / 2 + 2) (1) (5629499534213120) (by norm_num) (by norm_num [abs_of_pos])
      (by norm_num [abs_of_pos]) (by norm_num) (by norm_num)]
    norm_num
  have hw4 : fl64 (5 / 2 - 1 / 2) = 2 := by
    rw [fl64_eq (5 / 2 - 1 / 2) (1) (4503599627370496) (by norm_num) (by norm_num [abs_of_pos])
      (by norm_num [abs_of_pos]) (by norm_num) (by norm_num)]
    norm_num
  have hw5 : fl64 (4 - 1) = 3 := by
    rw [fl64_eq (4 - 1) (1) (6755399441055744) (by norm_num) (by norm_num [abs_of_pos])
      (by norm_num [abs_of_pos]) (by norm_num) (by norm_num)]
    norm_num
  have hw6 : fl64 (1 - 1 / 2) = 1 / 2 := by
    rw [fl64_eq (1 - 1 / 2) (-1) (4503599627370496) (by norm_num) (by norm_num [abs_of_pos])
      (by norm_num [abs_of_pos]) (by norm_num) (by norm_num)]
    norm_num
  have hw7 : fl64 (1 / 2) = 1 / 2 := by
    rw [fl64_eq (1 / 2) (-1) (4503599627370496) (by norm_num) (by norm_num [abs_of_pos])
      (by norm_num [abs_of_pos]) (by norm_num) (by norm_num)]
    norm_num
  have h := C5_adsr_key_points_float64 (NewADSREnvelope 1 (1 / 2) (1 / 2) 2 1) 1
    (by norm_num [NewADSREnvelope]) (by norm_num [NewADSREnvelope]) fl64_one hw7
  refine ⟨h.1, h.2.1 (3 / 2) hw1, h.2.2.1 (7 / 2) ?_ ?_ ?_ ?_, h.2.2.2 4 ?_ ?_⟩
  · show (1 / 2 : ℚ) < fl64 (7 / 2 - 1)
    rw [hw2]; norm_num
  · show fl64 (7 / 2 - 1) ≤ fl64 (1 / 2 + 2)
    rw [hw2, hw3]
  · show fl64 (fl64 (7 / 2 - 1) - 1 / 2) = 2
    rw [hw2, hw4]
  · show fl64 (1 - 1 / 2) = 1 - 1 / 2
    rw [hw6]; norm_num
  · show (1 / 2 : ℚ) < fl64 (4 - 1)
    rw [hw5]; norm_num
  · show fl64 (1 / 2 + 2) < fl64 (4 - 1)
    rw [hw3, hw5]; norm_num

/-- C6 at its failing input: the ADSR envelope (1, 0.5, 1, 1, 1) attacked at 0 and
released at 0 is off, yet its readings on [0, 0 + ReleaseDuration] are those of the attack
ramp: 0 at t = 0, where the release line gives SustainAmplitude = 0.5, and 1 at
t = 0 + ReleaseDuration = 1, where the release line gives 0 (float64 arithmetic; every
value here is exact). -/
theorem C6_release_during_attack :
    (((NewADSREnvelope 1 (1 / 2) 1 1 1).Attack 0).Release 0).isOn = false ∧
    (((NewADSREnvelope 1 (1 / 2) 1 1 1).Attack 0).Release 0).GetAmplitude64 0 = 0 ∧
    (NewADSREnvelope 1 (1 / 2) 1 1 1).SustainAmplitude *
      (1 - (0 - 0) / (NewADSREnvelope 1 (1 / 2) 1 1 1).ReleaseDuration) = 1 / 2 ∧
    fl64 (0 + (NewADSREnvelope 1 (1 / 2) 1 1 1).ReleaseDuration) = 1 ∧
    (((NewADSREnvelope 1 (1 / 2) 1 1 1).Attack 0).Release 0).GetAmplitude64 1 = 1 := by
  have hone : fl64 (0 + 1) = 1 := by
    rw [fl64_eq (0 + 1) (0) (4503599627370496) (by norm_num) (by norm_num [abs_of_pos])
      (by norm_num [abs_of_pos]) (by norm_num) (by norm_num)]
    norm_num
  have hc1 : fl64 (1 - 0) = 1 := by
    rw [fl64_eq (1 - 0) (0) (4503599627370496) (by norm_num) (by norm_num [abs_of_pos])
      (by norm_num [abs_of_pos]) (by norm_num) (by norm_num)]
    norm_num
  have hq1 : fl64 (1 / 1) = 1 := by
    rw [fl64_eq (1 / 1) (0) (4503599627370496) (by norm_num) (by norm_num [abs_of_pos])
      (by norm_num [abs_of_pos]) (by norm_num) (by norm_num)]
    norm_num
  have hv1 : fl64 (1 * 1) = 1 := by
    rw [fl64_eq (1 * 1) (0) (4503599627370496) (by norm_num) (by norm_num [abs_of_pos])
      (by norm_num [abs_of_pos]) (by norm_num) (by norm_num)]
    norm_num
  have hc0 : fl64 ((0 : ℚ) - 0) = 0 := by rw [sub_self, fl64_zero]
  refine ⟨rfl, ?_, by norm_num [NewADSREnvelope], hone, ?_⟩
  · rw [ADSREnvelope.attack64_adsr _ _ rfl
      (by show fl64 ((0 : ℚ) - 0) ≤ (1 : ℚ); rw [hc0]; norm_num)]
    show fl64 (fl64 (fl64 ((0 : ℚ) - 0) / 1) * 1) = 0
    rw [hc0, zero_div, fl64_zero, zero_mul, fl64_zero]
  · rw [ADSREnvelope.attack64_adsr _ _ rfl
      (by show fl64 (1 - 0) ≤ (1 : ℚ); rw [hc1])]
    show fl64 (fl64 (fl64 (1 - 0) / 1) * 1) = 1
    rw [hc1, hq1, hv1]

/-- C7 at its failing inputs: with shape amplitudes in [0,1] and positive durations,
after the single call Attack(0), at a time not before it, the float64 reading leaves
[0,1]. The AD envelope (1, 1, 0.1) reads -2^-50 at the float64 sum 1 + 0.1; the ADSR
envelope (0.5, 1, 1, 0.1, 1) reads 1 + 2^-51 there. -/
theorem C7_reading_outside_unit_interval :
    (0 : ℚ) < f64_0_1 ∧ fl64 (1 + f64_0_1) = 2476979795053773 / 2251799813685248 ∧
    (0 : ℚ) ≤ 2476979795053773 / 2251799813685248 ∧
    ((Envelope.ad (NewADEnvelope 1 1 f64_0_1)).calls [EnvCall.attack 0]).GetAmplitude64
      (2476979795053773 / 2251799813685248) = -1 / 1125899906842624 ∧
    ((Envelope.ad (NewADEnvelope 1 1 f64_0_1)).calls [EnvCall.attack 0]).GetAmplitude64
      (2476979795053773 / 2251799813685248) < 0 ∧
    ((Envelope.adsr (NewADSREnvelope (1 / 2) 1 1 f64_0_1 1)).calls
      [EnvCall.attack 0]).GetAmplitude64 (2476979795053773 / 2251799813685248) =
      2251799813685249 / 2251799813685248 ∧
    1 < ((Envelope.adsr (NewADSREnvelope (1 / 2) 1 1 f64_0_1 1)).calls
      [EnvCall.attack 0]).GetAmplitude64 (2476979795053773 / 2251799813685248) := by
  have h1 : ((Envelope.ad (NewADEnvelope 1 1 f64_0_1)).calls
      [EnvCall.attack 0]).GetAmplitude64 (2476979795053773 / 2251799813685248) = -1 / 1125899906842624 :=
    ADEnvelope.reading_ad_decay_end
  have h2 : ((Envelope.adsr (NewADSREnvelope (1 / 2) 1 1 f64_0_1 1)).calls
      [EnvCall.attack 0]).GetAmplitude64 (2476979795053773 / 2251799813685248) =
      2251799813685249 / 2251799813685248 :=
    ADSREnvelope.reading_adsr_decay_end
  refine ⟨by norm_num [f64_0_1], fl64_one_add_tenth, by norm_num, h1, ?_, h2, ?_⟩
  · rw [h1]; norm_num
  · rw [h2]; norm_num

end GoSynth
